import Mathlib

/-!
Verification of the finance-dashboard repository's specification claims.

The Python sources are shallowly embedded here:
* `src/utils/tax_calculator.py` (`calculate_tax_liability`) — tax section;
* the sidebar import handler of `src/app.py` (concat / drop_duplicates /
  sort_values merge) — ledger section;
* `src/utils/vendor_database.py` (`VENDOR_DATABASE`, `match_vendor`) and
  `src/utils/data_processor.py` (`categorize_transactions`) — classifier
  section;
* `src/utils/file_handler.py` (the split debit/credit combination of
  `parse_csv`, and `clean_description`) — file-handling section.

Python floats are modelled as exact rationals (`ℚ`), `float('inf')` used as a
bracket upper bound as `Option ℚ` with `none` for infinity, and pandas
DataFrames as Lean lists of row structures.  Strings are modelled as `List
Char` (ASCII, matching the data the app processes).
-/

namespace FinDash

/-! ## Tax calculator (`src/utils/tax_calculator.py`) -/

/-- A tax bracket as in the app: `min`, `max` (where `none` models
`float('inf')`) and `rate`. -/
structure TaxBracket where
  bmin : ℚ
  bmax : Option ℚ
  rate : ℚ
deriving DecidableEq

/-- `remaining_income <= max_amount`, with `max_amount = float('inf')`
(`none`) comparing greater than every rational. -/
def leMax (r : ℚ) : Option ℚ → Prop
  | none => True
  | some v => r ≤ v

instance (r : ℚ) : (m : Option ℚ) → Decidable (leMax r m)
  | none => .isTrue trivial
  | some v => inferInstanceAs (Decidable (r ≤ v))

/-- `remaining_income > max_amount`; false when `max_amount` is infinite. -/
def gtMax (r : ℚ) : Option ℚ → Prop
  | none => False
  | some v => v < r

instance (r : ℚ) : (m : Option ℚ) → Decidable (gtMax r m)
  | none => .isFalse not_false
  | some v => inferInstanceAs (Decidable (v < r))

/-- The `income_in_bracket` computation of `calculate_tax_liability`
(tax_calculator.py lines 27-34), for the current `remaining_income` `r`. -/
def incomeInBracket (r : ℚ) (b : TaxBracket) : ℚ :=
  if r ≤ 0 then 0
  else if b.bmin ≤ r ∧ leMax r b.bmax then r - b.bmin
  else if gtMax r b.bmax then b.bmax.getD 0 - b.bmin
  else 0

/-- One entry of `bracket_breakdown`. -/
structure BreakdownEntry where
  bmin : ℚ
  bmax : Option ℚ
  rate : ℚ
  income_in_bracket : ℚ
  tax_amount : ℚ
deriving DecidableEq

/-- Result record of `calculate_tax_liability`. -/
structure TaxResult where
  annual_income : ℚ
  total_tax : ℚ
  effective_rate : ℚ
  bracket_breakdown : List BreakdownEntry
deriving DecidableEq

/-- The bracket loop of `calculate_tax_liability` (lines 21-57): running
total, remaining income and breakdown accumulator, with the early `break`
once `remaining_income <= 0`. -/
def taxLoop : List TaxBracket → ℚ → ℚ → List BreakdownEntry →
    ℚ × ℚ × List BreakdownEntry
  | [], t, r, acc => (t, r, acc)
  | b :: bs, t, r, acc =>
    let f := incomeInBracket r b
    let ta := f * b.rate
    let acc2 := if 0 < f then
        acc ++ [⟨b.bmin, b.bmax, b.rate, f, ta⟩] else acc
    if r - f ≤ 0 then (t + ta, r - f, acc2)
    else taxLoop bs (t + ta) (r - f) acc2

/-- `calculate_tax_liability(annual_income, tax_brackets)`: sort brackets by
`min` (Python `sorted` is stable, as is `List.insertionSort`), walk them, and
report the effective rate. -/
def calculate_tax_liability (annual_income : ℚ) (tax_brackets : List TaxBracket) :
    TaxResult :=
  let sorted_brackets := List.insertionSort (fun a b => a.bmin ≤ b.bmin) tax_brackets
  let res := taxLoop sorted_brackets 0 annual_income []
  { annual_income := annual_income
    total_tax := res.1
    effective_rate := if 0 < annual_income then res.1 / annual_income * 100 else 0
    bracket_breakdown := res.2.2 }

/-- The default seven-bracket 2023 US single-filer table of `src/app.py`
lines 49-57. -/
def defaultTaxBrackets : List TaxBracket :=
  [ ⟨0, some 11000, 0.10⟩
  , ⟨11000, some 44725, 0.12⟩
  , ⟨44725, some 95375, 0.22⟩
  , ⟨95375, some 182100, 0.24⟩
  , ⟨182100, some 231250, 0.32⟩
  , ⟨231250, some 578125, 0.35⟩
  , ⟨578125, none, 0.37⟩ ]

/-- Each bracket's `min` does not exceed its `max` (vacuous for the infinite
top bracket). -/
def minLeMax (b : TaxBracket) : Prop :=
  leMax b.bmin b.bmax

instance (b : TaxBracket) : Decidable (minLeMax b) :=
  inferInstanceAs (Decidable (leMax b.bmin b.bmax))

/-- C1: on the default seven-bracket US table with `annual_income = 75000`
the code returns `total_tax = 5147` (only the two lowest brackets are ever
taxed, because after each bracket the already-reduced `remaining_income` is
compared against the next bracket's absolute `min`/`max` bounds), not the
claimed stepwise sum `0.10*11000 + 0.12*(44725-11000) + 0.22*(75000-44725) =
11807.50`; the effective rate is `5147/75000*100`. -/
theorem C1_tax_75000_code_value :
    (calculate_tax_liability 75000 defaultTaxBrackets).total_tax = 5147 ∧
    (calculate_tax_liability 75000 defaultTaxBrackets).effective_rate
      = 5147 / 75000 * 100 ∧
    (0.10 : ℚ) * 11000 + 0.12 * (44725 - 11000) + 0.22 * (75000 - 44725)
      = 11807.5 ∧
    (5147 : ℚ) ≠ 11807.5 := by
  refine ⟨?_, ?_, by norm_num, by norm_num⟩ <;>
    norm_num [calculate_tax_liability, defaultTaxBrackets, List.insertionSort,
      List.orderedInsert, taxLoop, incomeInBracket, leMax, gtMax]

theorem incomeInBracket_of_nonpos {r : ℚ} (h : r ≤ 0) (b : TaxBracket) :
    incomeInBracket r b = 0 := by
  simp [incomeInBracket, h]

theorem incomeInBracket_eq_none {b : TaxBracket} (hmax : b.bmax = none) (r : ℚ) :
    incomeInBracket r b = if 0 < r ∧ b.bmin ≤ r then r - b.bmin else 0 := by
  unfold incomeInBracket
  rw [hmax]
  by_cases h0 : r ≤ 0
  · rw [if_pos h0, if_neg (fun hc => absurd h0 (not_le_of_lt hc.1))]
  · push_neg at h0
    rw [if_neg (not_le_of_lt h0)]
    by_cases h1 : b.bmin ≤ r
    · rw [if_pos ⟨h1, show leMax r none from trivial⟩, if_pos ⟨h0, h1⟩]
    · rw [if_neg (fun hc => h1 hc.1),
        if_neg (show ¬gtMax r none from not_false),
        if_neg (fun hc => h1 hc.2)]

theorem incomeInBracket_eq_some {b : TaxBracket} {v : ℚ} (hmax : b.bmax = some v)
    (hv : b.bmin ≤ v) (r : ℚ) :
    incomeInBracket r b =
      if 0 < r ∧ b.bmin ≤ r then min (r - b.bmin) (v - b.bmin) else 0 := by
  unfold incomeInBracket
  rw [hmax]
  by_cases h0 : r ≤ 0
  · rw [if_pos h0, if_neg (fun hc => absurd h0 (not_le_of_lt hc.1))]
  · push_neg at h0
    rw [if_neg (not_le_of_lt h0)]
    by_cases h1 : b.bmin ≤ r
    · by_cases h2 : r ≤ v
      · rw [if_pos ⟨h1, show leMax r (some v) from h2⟩, if_pos ⟨h0, h1⟩,
          min_eq_left (by linarith)]
      · push_neg at h2
        rw [if_neg (fun hc =>
              absurd (show r ≤ v from hc.2) (not_le_of_lt h2)),
          if_pos (show gtMax r (some v) from h2), if_pos ⟨h0, h1⟩,
          min_eq_right (by linarith)]
        rfl
    · have h2 : ¬ v < r := fun h2 => h1 (by linarith)
      rw [if_neg (fun hc => h1 hc.1),
        if_neg (show ¬gtMax r (some v) from h2),
        if_neg (fun hc => h1 hc.2)]

theorem incomeInBracket_nonneg {b : TaxBracket} (hm : minLeMax b) (r : ℚ) :
    0 ≤ incomeInBracket r b := by
  rcases hmax : b.bmax with _ | v
  · rw [incomeInBracket_eq_none hmax]
    split_ifs with h
    · linarith [h.1, h.2]
    · exact le_rfl
  · have hv : b.bmin ≤ v := by simpa [minLeMax, leMax, hmax] using hm
    rw [incomeInBracket_eq_some hmax hv]
    split_ifs with h
    · exact le_min (by linarith [h.2]) (by linarith)
    · exact le_rfl

theorem incomeInBracket_mono {b : TaxBracket} (hm : minLeMax b) {r1 r2 : ℚ}
    (h : r1 ≤ r2) : incomeInBracket r1 b ≤ incomeInBracket r2 b := by
  rcases hmax : b.bmax with _ | v
  · rw [incomeInBracket_eq_none hmax, incomeInBracket_eq_none hmax]
    split_ifs with h1 h2
    · linarith
    · exact absurd ⟨by linarith [h1.1], by linarith [h1.2]⟩ h2
    · rename_i h2
      linarith [h2.1, h2.2]
    · exact le_rfl
  · have hv : b.bmin ≤ v := by simpa [minLeMax, leMax, hmax] using hm
    rw [incomeInBracket_eq_some hmax hv, incomeInBracket_eq_some hmax hv]
    split_ifs with h1 h2
    · exact min_le_min (by linarith) le_rfl
    · exact absurd ⟨by linarith [h1.1], by linarith [h1.2]⟩ h2
    · rename_i h2
      exact le_min (by linarith [h2.1, h2.2]) (by linarith)
    · exact le_rfl

theorem remaining_pair {b : TaxBracket} (hm : minLeMax b) {r1 r2 : ℚ}
    (hP : r1 ≤ r2 ∨ (r1 ≤ 0 ∧ r2 ≤ 0)) :
    r1 - incomeInBracket r1 b ≤ r2 - incomeInBracket r2 b ∨
      (r1 - incomeInBracket r1 b ≤ 0 ∧ r2 - incomeInBracket r2 b ≤ 0) := by
  rcases hP with h12 | ⟨h1, h2⟩
  · by_cases hr1 : r1 ≤ 0
    · rw [incomeInBracket_of_nonpos hr1]
      rcases le_or_lt (r2 - incomeInBracket r2 b) 0 with h | h
      · exact Or.inr ⟨by linarith, h⟩
      · exact Or.inl (by linarith)
    · left
      push_neg at hr1
      have h02 : 0 < r2 := lt_of_lt_of_le hr1 h12
      rcases hmax : b.bmax with _ | v
      · rw [incomeInBracket_eq_none hmax, incomeInBracket_eq_none hmax]
        by_cases hb1 : b.bmin ≤ r1
        · rw [if_pos ⟨hr1, hb1⟩, if_pos ⟨h02, hb1.trans h12⟩]
          linarith
        · rw [if_neg (fun hc => hb1 hc.2)]
          push_neg at hb1
          by_cases hb2 : b.bmin ≤ r2
          · rw [if_pos ⟨h02, hb2⟩]
            linarith
          · rw [if_neg (fun hc => hb2 hc.2)]
            linarith
      · have hv : b.bmin ≤ v := by simpa [minLeMax, leMax, hmax] using hm
        rw [incomeInBracket_eq_some hmax hv, incomeInBracket_eq_some hmax hv]
        by_cases hb1 : b.bmin ≤ r1
        · rw [if_pos ⟨hr1, hb1⟩, if_pos ⟨h02, hb1.trans h12⟩]
          rcases min_cases (r1 - b.bmin) (v - b.bmin) with ⟨e1, c1⟩ | ⟨e1, c1⟩ <;>
            rcases min_cases (r2 - b.bmin) (v - b.bmin) with ⟨e2, c2⟩ | ⟨e2, c2⟩ <;>
              rw [e1, e2] <;> linarith
        · rw [if_neg (fun hc => hb1 hc.2)]
          push_neg at hb1
          by_cases hb2 : b.bmin ≤ r2
          · rw [if_pos ⟨h02, hb2⟩]
            rcases min_cases (r2 - b.bmin) (v - b.bmin) with ⟨e2, c2⟩ | ⟨e2, c2⟩ <;>
              rw [e2] <;> linarith
          · rw [if_neg (fun hc => hb2 hc.2)]
            linarith
  · rw [incomeInBracket_of_nonpos h1, incomeInBracket_of_nonpos h2]
    exact Or.inr ⟨by linarith, by linarith⟩

theorem taxLoop_ge (brs : List TaxBracket)
    (hb : ∀ b ∈ brs, 0 ≤ b.rate ∧ minLeMax b) :
    ∀ (t r : ℚ) (acc : List BreakdownEntry), t ≤ (taxLoop brs t r acc).1 := by
  induction brs with
  | nil => intro t r acc; simp [taxLoop]
  | cons b bs ih =>
    intro t r acc
    obtain ⟨hr, hm⟩ := hb b (List.mem_cons_self b bs)
    have hbs : ∀ x ∈ bs, 0 ≤ x.rate ∧ minLeMax x :=
      fun x hx => hb x (List.mem_cons_of_mem b hx)
    have hta : 0 ≤ incomeInBracket r b * b.rate :=
      mul_nonneg (incomeInBracket_nonneg hm r) hr
    simp only [taxLoop]
    rcases le_or_lt (r - incomeInBracket r b) 0 with h | h
    · rw [if_pos h]
      show t ≤ t + incomeInBracket r b * b.rate
      linarith
    · rw [if_neg (not_le_of_lt h)]
      exact le_trans (by linarith : t ≤ t + incomeInBracket r b * b.rate)
        (ih hbs _ _ _)

theorem taxLoop_mono (brs : List TaxBracket)
    (hb : ∀ b ∈ brs, 0 ≤ b.rate ∧ minLeMax b) :
    ∀ (t1 t2 r1 r2 : ℚ) (acc1 acc2 : List BreakdownEntry), t1 ≤ t2 →
      (r1 ≤ r2 ∨ (r1 ≤ 0 ∧ r2 ≤ 0)) →
      (taxLoop brs t1 r1 acc1).1 ≤ (taxLoop brs t2 r2 acc2).1 := by
  induction brs with
  | nil => intro t1 t2 r1 r2 acc1 acc2 ht _; simpa [taxLoop] using ht
  | cons b bs ih =>
    intro t1 t2 r1 r2 acc1 acc2 ht hP
    obtain ⟨hr, hm⟩ := hb b (List.mem_cons_self b bs)
    have hbs : ∀ x ∈ bs, 0 ≤ x.rate ∧ minLeMax x :=
      fun x hx => hb x (List.mem_cons_of_mem b hx)
    have hf12 : incomeInBracket r1 b ≤ incomeInBracket r2 b := by
      rcases hP with h | ⟨h1, h2⟩
      · exact incomeInBracket_mono hm h
      · rw [incomeInBracket_of_nonpos h1, incomeInBracket_of_nonpos h2]
    have ht' : t1 + incomeInBracket r1 b * b.rate ≤
        t2 + incomeInBracket r2 b * b.rate :=
      add_le_add ht (mul_le_mul_of_nonneg_right hf12 hr)
    have hP' := remaining_pair hm hP
    simp only [taxLoop]
    rcases le_or_lt (r1 - incomeInBracket r1 b) 0 with hs1 | hs1 <;>
      rcases le_or_lt (r2 - incomeInBracket r2 b) 0 with hs2 | hs2
    · rw [if_pos hs1, if_pos hs2]
      exact ht'
    · rw [if_pos hs1, if_neg (not_le_of_lt hs2)]
      exact le_trans
        (show t1 + incomeInBracket r1 b * b.rate ≤
          t2 + incomeInBracket r2 b * b.rate from ht')
        (taxLoop_ge bs hbs _ _ _)
    · exfalso
      rcases hP' with h | ⟨ha, _⟩
      · linarith
      · linarith
    · rw [if_neg (not_le_of_lt hs1), if_neg (not_le_of_lt hs2)]
      exact ih hbs _ _ _ _ _ _ ht' hP'

/-- C9 (amended): for bracket lists whose rates are non-negative and whose
`min` does not exceed `max` (as any real tax table, and as the app's bracket
editor can produce except for the `min ≤ max` relation it fails to enforce),
`total_tax` is monotone non-decreasing in `annual_income`. -/
theorem C9_tax_monotone (brs : List TaxBracket)
    (hb : ∀ b ∈ brs, 0 ≤ b.rate ∧ minLeMax b) {i1 i2 : ℚ} (h : i1 ≤ i2) :
    (calculate_tax_liability i1 brs).total_tax ≤
      (calculate_tax_liability i2 brs).total_tax := by
  have hb' : ∀ b ∈ List.insertionSort (fun a b => a.bmin ≤ b.bmin) brs,
      0 ≤ b.rate ∧ minLeMax b := by
    intro b hbm
    exact hb b ((List.mem_insertionSort _).mp hbm)
  simpa [calculate_tax_liability] using
    taxLoop_mono _ hb' 0 0 i1 i2 [] [] le_rfl (Or.inl h)

/-- Witness for C9: the amended monotonicity theorem applied to the default
US table at incomes 30000 ≤ 80000. -/
theorem C9_tax_monotone_witness :
    ((∀ b ∈ defaultTaxBrackets, 0 ≤ b.rate ∧ minLeMax b) ∧ (30000 : ℚ) ≤ 80000) ∧
    (calculate_tax_liability 30000 defaultTaxBrackets).total_tax ≤
      (calculate_tax_liability 80000 defaultTaxBrackets).total_tax :=
  ⟨⟨by norm_num [defaultTaxBrackets, minLeMax, leMax], by norm_num⟩,
    C9_tax_monotone defaultTaxBrackets
      (by norm_num [defaultTaxBrackets, minLeMax, leMax]) (by norm_num)⟩

/-- C9 counterexample: for the (trivially min-ascending) single-bracket list
with `min = 10 > max = 5` and rate 50% — a table the bracket editor does not
rule out — `total_tax` strictly decreases from income 4 to income 20, so the
claim as stated (over every min-sorted bracket list) is false. -/
theorem C9_counterexample :
    (4 : ℚ) ≤ 20 ∧
    (calculate_tax_liability 20 [⟨10, some 5, 1/2⟩]).total_tax <
      (calculate_tax_liability 4 [⟨10, some 5, 1/2⟩]).total_tax := by
  constructor
  · norm_num
  · norm_num [calculate_tax_liability, List.insertionSort, List.orderedInsert,
      taxLoop, incomeInBracket, leMax, gtMax]

theorem taxLoop_breakdown_entries (brs : List TaxBracket) :
    ∀ (t r : ℚ) (acc : List BreakdownEntry),
      (∀ e ∈ acc, 0 < e.income_in_bracket ∧
        e.tax_amount = e.income_in_bracket * e.rate) →
      ∀ e ∈ (taxLoop brs t r acc).2.2,
        0 < e.income_in_bracket ∧ e.tax_amount = e.income_in_bracket * e.rate := by
  induction brs with
  | nil => intro t r acc hacc; simpa [taxLoop] using hacc
  | cons b bs ih =>
    intro t r acc hacc
    have hacc2 : ∀ e ∈ (if 0 < incomeInBracket r b then
        acc ++ [⟨b.bmin, b.bmax, b.rate, incomeInBracket r b,
          incomeInBracket r b * b.rate⟩] else acc),
        0 < e.income_in_bracket ∧ e.tax_amount = e.income_in_bracket * e.rate := by
      split_ifs with hf
      · intro e he
        rcases List.mem_append.mp he with h | h
        · exact hacc e h
        · rcases List.mem_singleton.mp h with rfl
          exact ⟨hf, rfl⟩
      · exact hacc
    simp only [taxLoop]
    rcases le_or_lt (r - incomeInBracket r b) 0 with h | h
    · rw [if_pos h]
      exact fun e he => hacc2 e he
    · rw [if_neg (not_le_of_lt h)]
      exact fun e he => ih _ _ _ hacc2 e he

theorem taxLoop_sum (brs : List TaxBracket) (hb : ∀ b ∈ brs, minLeMax b) :
    ∀ (t r : ℚ) (acc : List BreakdownEntry),
      (taxLoop brs t r acc).1 -
        (((taxLoop brs t r acc).2.2).map (·.tax_amount)).sum =
      t - (acc.map (·.tax_amount)).sum := by
  induction brs with
  | nil => intro t r acc; simp [taxLoop]
  | cons b bs ih =>
    intro t r acc
    have hm := hb b (List.mem_cons_self b bs)
    have hbs : ∀ x ∈ bs, minLeMax x := fun x hx => hb x (List.mem_cons_of_mem b hx)
    have hf : 0 ≤ incomeInBracket r b := incomeInBracket_nonneg hm r
    simp only [taxLoop]
    by_cases hfpos : 0 < incomeInBracket r b
    · rw [if_pos hfpos]
      rcases le_or_lt (r - incomeInBracket r b) 0 with h | h
      · rw [if_pos h]
        show t + incomeInBracket r b * b.rate -
            ((acc ++ ([⟨b.bmin, b.bmax, b.rate, incomeInBracket r b,
              incomeInBracket r b * b.rate⟩] : List BreakdownEntry)).map
                (·.tax_amount)).sum
          = t - (acc.map (·.tax_amount)).sum
        simp [List.map_append, List.sum_append]
      · rw [if_neg (not_le_of_lt h), ih hbs]
        simp [List.map_append, List.sum_append]
    · have hf0 : incomeInBracket r b = 0 := le_antisymm (not_lt.mp hfpos) hf
      rw [if_neg hfpos]
      rcases le_or_lt (r - incomeInBracket r b) 0 with h | h
      · rw [if_pos h]
        show t + incomeInBracket r b * b.rate -
            (acc.map (·.tax_amount)).sum = t - (acc.map (·.tax_amount)).sum
        rw [hf0]
        ring
      · rw [if_neg (not_le_of_lt h), ih hbs, hf0]
        ring_nf

/-- C10 (amended): for bracket lists in which each bracket's `min` does not
exceed its `max`, every `bracket_breakdown` entry has strictly positive
`income_in_bracket` and `tax_amount = income_in_bracket * rate`, and
`total_tax` equals the sum of the breakdown's `tax_amount`s.  (The first two
conjuncts hold for all lists; the sum conjunct needs `min ≤ max`, see the
counterexample.) -/
theorem C10_breakdown_invariant (income : ℚ) (brs : List TaxBracket)
    (hb : ∀ b ∈ brs, minLeMax b) :
    (∀ e ∈ (calculate_tax_liability income brs).bracket_breakdown,
        0 < e.income_in_bracket ∧ e.tax_amount = e.income_in_bracket * e.rate) ∧
    (calculate_tax_liability income brs).total_tax =
      (((calculate_tax_liability income brs).bracket_breakdown).map
        (·.tax_amount)).sum := by
  have hb' : ∀ b ∈ List.insertionSort (fun a b => a.bmin ≤ b.bmin) brs,
      minLeMax b := by
    intro b hbm
    exact hb b ((List.mem_insertionSort _).mp hbm)
  constructor
  · intro e he
    exact taxLoop_breakdown_entries _ 0 income [] (by simp) e
      (by simpa [calculate_tax_liability] using he)
  · have h := taxLoop_sum _ hb' 0 income []
    simp only [List.map_nil, List.sum_nil, sub_zero] at h
    have h' : (calculate_tax_liability income brs).total_tax -
        (((calculate_tax_liability income brs).bracket_breakdown).map
          (·.tax_amount)).sum = 0 - 0 := by
      simpa [calculate_tax_liability] using h
    linarith

/-- Witness for C10: the amended invariant applied to the default US table at
income 75000. -/
theorem C10_breakdown_invariant_witness :
    (∀ b ∈ defaultTaxBrackets, minLeMax b) ∧
    (calculate_tax_liability 75000 defaultTaxBrackets).total_tax =
      (((calculate_tax_liability 75000 defaultTaxBrackets).bracket_breakdown).map
        (·.tax_amount)).sum :=
  ⟨by norm_num [defaultTaxBrackets, minLeMax, leMax],
    (C10_breakdown_invariant 75000 defaultTaxBrackets
      (by norm_num [defaultTaxBrackets, minLeMax, leMax])).2⟩

/-- C10 counterexample: with the degenerate bracket `min = 10 > max = 5`
(rate 50%) and income 20, the code adds the negative bracket tax `-5/2` to
`total_tax` but excludes the entry from `bracket_breakdown` (its
`income_in_bracket` is not positive), so `total_tax` differs from the
breakdown sum and the claim quantified over every bracket list is false. -/
theorem C10_counterexample :
    (calculate_tax_liability 20 [⟨10, some 5, 1/2⟩]).bracket_breakdown = [] ∧
    (calculate_tax_liability 20 [⟨10, some 5, 1/2⟩]).total_tax ≠
      (((calculate_tax_liability 20 [⟨10, some 5, 1/2⟩]).bracket_breakdown).map
        (·.tax_amount)).sum := by
  constructor <;>
    norm_num [calculate_tax_liability, List.insertionSort, List.orderedInsert,
      taxLoop, incomeInBracket, leMax, gtMax]

/-! ## Ledger merge (`src/app.py` sidebar import handler, lines 147-162)

A ledger row carries the three columns the dedup key inspects (`date`,
`description`, `amount`); every other DataFrame column (`statement_id`,
`category`, ...) is abstracted into `payload`.  Dates are modelled as
integers (timestamps). -/

structure LRow where
  ldate : Int
  ldesc : String
  lamount : ℚ
  payload : String
deriving DecidableEq

/-- The `subset=['date', 'description', 'amount']` dedup key. -/
def rowKey (r : LRow) : Int × String × ℚ :=
  (r.ldate, r.ldesc, r.lamount)

/-- Worker for `drop_duplicates(..., keep='first')`: keep a row iff its key
was not seen earlier. -/
def dedupGo (seen : List (Int × String × ℚ)) : List LRow → List LRow
  | [] => []
  | r :: rs =>
    if rowKey r ∈ seen then dedupGo seen rs
    else r :: dedupGo (rowKey r :: seen) rs

/-- `drop_duplicates(subset=['date', 'description', 'amount'], keep='first')`. -/
def dedupKeepFirst (l : List LRow) : List LRow :=
  dedupGo [] l

/-- Date-descending order for `sort_values('date', ascending=False)`. -/
def dateDesc (a b : LRow) : Prop :=
  b.ldate ≤ a.ldate

instance : DecidableRel dateDesc :=
  fun a b => inferInstanceAs (Decidable (b.ldate ≤ a.ldate))

instance : IsTotal LRow dateDesc :=
  ⟨fun a b => le_total b.ldate a.ldate⟩

instance : IsTrans LRow dateDesc :=
  ⟨fun _ _ _ hab hbc => le_trans hbc hab⟩

/-- `sort_values('date', ascending=False)`, using a stable sort (pandas does
not fix the order of ties; this picks one admissible order). -/
def sortDesc (l : List LRow) : List LRow :=
  List.insertionSort dateDesc l

/-- The sidebar import handler: when the current ledger is non-empty, concat
with the new batch, drop duplicate `(date, description, amount)` triples
keeping the first occurrence, and sort by date descending; when the current
ledger is empty the batch is taken as-is (no dedup) and sorted. -/
def mergeLedger (existing new_batch : List LRow) : List LRow :=
  if existing = [] then sortDesc new_batch
  else sortDesc (dedupKeepFirst (existing ++ new_batch))

/-- First row of the list whose key matches, if any. -/
def firstWithKey : List LRow → Int × String × ℚ → Option LRow
  | [], _ => none
  | r :: rs, k => if rowKey r = k then some r else firstWithKey rs k

theorem mem_of_mem_dedupGo {r : LRow} :
    ∀ (l : List LRow) (seen : List (Int × String × ℚ)),
      r ∈ dedupGo seen l → r ∈ l := by
  intro l
  induction l with
  | nil => intro seen h; simpa [dedupGo] using h
  | cons a as ih =>
    intro seen h
    by_cases hs : rowKey a ∈ seen
    · simp only [dedupGo, if_pos hs] at h
      exact List.mem_cons_of_mem a (ih _ h)
    · simp only [dedupGo, if_neg hs] at h
      rcases List.mem_cons.mp h with heq | h
      · exact heq ▸ List.mem_cons_self a as
      · exact List.mem_cons_of_mem a (ih _ h)

theorem dedupGo_covers {r : LRow} :
    ∀ (l : List LRow) (seen : List (Int × String × ℚ)),
      r ∈ l → rowKey r ∉ seen →
      ∃ r2 ∈ dedupGo seen l, rowKey r2 = rowKey r := by
  intro l
  induction l with
  | nil => intro seen h; exact absurd h (List.not_mem_nil r)
  | cons a as ih =>
    intro seen h hns
    by_cases hs : rowKey a ∈ seen
    · simp only [dedupGo, if_pos hs]
      rcases List.mem_cons.mp h with heq | h
      · exact absurd (heq ▸ hs) hns
      · exact ih _ h hns
    · simp only [dedupGo, if_neg hs]
      rcases List.mem_cons.mp h with heq | h
      · exact ⟨a, List.mem_cons_self a _, (heq ▸ rfl : rowKey a = rowKey r).symm ▸ rfl⟩
      · by_cases hk : rowKey r = rowKey a
        · exact ⟨a, List.mem_cons_self a _, hk.symm⟩
        · obtain ⟨r2, hr2, he⟩ := ih (rowKey a :: seen) h
            (by simp [hns, hk])
          exact ⟨r2, List.mem_cons_of_mem a hr2, he⟩

theorem dedupGo_keys :
    ∀ (l : List LRow) (seen : List (Int × String × ℚ)),
      (∀ r ∈ dedupGo seen l, rowKey r ∉ seen) ∧
      (dedupGo seen l).Pairwise (fun a b => rowKey a ≠ rowKey b) := by
  intro l
  induction l with
  | nil => intro seen; simp [dedupGo]
  | cons a as ih =>
    intro seen
    by_cases hs : rowKey a ∈ seen
    · simpa only [dedupGo, if_pos hs] using ih seen
    · simp only [dedupGo, if_neg hs]
      refine ⟨?_, ?_⟩
      · intro r hr
        rcases List.mem_cons.mp hr with rfl | hr
        · exact hs
        · have := (ih (rowKey a :: seen)).1 r hr
          intro hcon
          exact this (List.mem_cons_of_mem _ hcon)
      · refine List.pairwise_cons.mpr ⟨?_, (ih (rowKey a :: seen)).2⟩
        intro b hb
        have := (ih (rowKey a :: seen)).1 b hb
        intro hcon
        exact this (by simp [hcon])

theorem dedupGo_firstWithKey {r : LRow} :
    ∀ (l : List LRow) (seen : List (Int × String × ℚ)),
      r ∈ dedupGo seen l → firstWithKey l (rowKey r) = some r := by
  intro l
  induction l with
  | nil => intro seen h; simpa [dedupGo] using h
  | cons a as ih =>
    intro seen h
    by_cases hs : rowKey a ∈ seen
    · simp only [dedupGo, if_pos hs] at h
      have hnot := (dedupGo_keys as seen).1 r h
      have hne : ¬ rowKey a = rowKey r := by
        intro he
        exact hnot (he ▸ hs)
      simp only [firstWithKey, if_neg hne]
      exact ih _ h
    · simp only [dedupGo, if_neg hs] at h
      rcases List.mem_cons.mp h with heq | h
      · subst heq
        simp [firstWithKey]
      · have hnot := (dedupGo_keys as (rowKey a :: seen)).1 r h
        have hne : ¬ rowKey a = rowKey r := by
          intro he
          exact hnot (by simp [he])
        simp only [firstWithKey, if_neg hne]
        exact ih _ h

/-- C7 (amended): when the existing ledger is non-empty, the merge result is
sorted by date descending, draws its rows from the concatenation, has
pairwise-distinct `(date, description, amount)` keys, covers every incoming
key, and keeps for each key exactly the first-seen occurrence of
`existing ++ new_batch` — so existing rows take precedence over incoming
duplicates.  (When the existing ledger is empty the code skips the dedup
entirely; see the counterexample.) -/
theorem C7_merge_spec (existing new_batch : List LRow) (hne : existing ≠ []) :
    (mergeLedger existing new_batch).Sorted dateDesc ∧
    (∀ r ∈ mergeLedger existing new_batch, r ∈ existing ++ new_batch) ∧
    (mergeLedger existing new_batch).Pairwise
      (fun a b => rowKey a ≠ rowKey b) ∧
    (∀ r ∈ existing ++ new_batch,
      ∃ r2 ∈ mergeLedger existing new_batch, rowKey r2 = rowKey r) ∧
    (∀ r ∈ mergeLedger existing new_batch,
      firstWithKey (existing ++ new_batch) (rowKey r) = some r) := by
  have hme : mergeLedger existing new_batch
      = sortDesc (dedupKeepFirst (existing ++ new_batch)) := by
    simp [mergeLedger, hne]
  have hperm : List.Perm (sortDesc (dedupKeepFirst (existing ++ new_batch)))
      (dedupKeepFirst (existing ++ new_batch)) :=
    List.perm_insertionSort dateDesc _
  have hsymm : ∀ {x y : LRow}, rowKey x ≠ rowKey y → rowKey y ≠ rowKey x :=
    fun h he => h he.symm
  refine ⟨?_, ?_, ?_, ?_, ?_⟩
  · rw [hme]
    exact List.sorted_insertionSort dateDesc _
  · intro r hr
    rw [hme] at hr
    exact mem_of_mem_dedupGo _ _ ((List.mem_insertionSort dateDesc).mp hr)
  · rw [hme]
    exact (List.Perm.pairwise_iff hsymm hperm).mpr
      (dedupGo_keys (existing ++ new_batch) []).2
  · intro r hr
    obtain ⟨r2, hr2, he⟩ :=
      dedupGo_covers (existing ++ new_batch) [] hr (List.not_mem_nil _)
    exact ⟨r2, by rw [hme]; exact (List.mem_insertionSort dateDesc).mpr hr2, he⟩
  · intro r hr
    rw [hme] at hr
    exact dedupGo_firstWithKey _ _ ((List.mem_insertionSort dateDesc).mp hr)

/-- Witness for C7: the amended merge specification applied to a concrete
one-row ledger and one-row batch. -/
theorem C7_merge_spec_witness :
    ([⟨5, "a", 10, "x"⟩] : List LRow) ≠ [] ∧
    (mergeLedger [⟨5, "a", 10, "x"⟩] [⟨7, "b", -3, "y"⟩]).Sorted dateDesc :=
  ⟨by simp, (C7_merge_spec [⟨5, "a", 10, "x"⟩] [⟨7, "b", -3, "y"⟩] (by simp)).1⟩

/-- C7 counterexample: importing a two-row batch whose rows share one
`(date, description, amount)` triple into an *empty* ledger keeps both rows —
the empty-ledger branch of the import handler performs no dedup — so the
claim's "removes every row whose triple duplicates an earlier row" fails for
the empty existing ledger. -/
theorem C7_counterexample :
    (mergeLedger [] [⟨0, "a", 1, "p"⟩, ⟨0, "a", 1, "q"⟩]).length = 2 ∧
    ¬ (mergeLedger [] [⟨0, "a", 1, "p"⟩, ⟨0, "a", 1, "q"⟩]).Pairwise
        (fun a b => rowKey a ≠ rowKey b) := by
  constructor
  · rfl
  · intro h
    have h2 : mergeLedger [] [⟨0, "a", 1, "p"⟩, ⟨0, "a", 1, "q"⟩]
        = [⟨0, "a", 1, "p"⟩, ⟨0, "a", 1, "q"⟩] := rfl
    rw [h2] at h
    exact (List.pairwise_cons.mp h).1 ⟨0, "a", 1, "q"⟩
      (List.mem_singleton.mpr rfl) rfl

/-- Keys accumulated by `dedupGo` after processing a list. -/
def dedupSeen (seen : List (Int × String × ℚ)) : List LRow →
    List (Int × String × ℚ)
  | [] => seen
  | r :: rs =>
    if rowKey r ∈ seen then dedupSeen seen rs
    else dedupSeen (rowKey r :: seen) rs

theorem dedupGo_append (A : List LRow) :
    ∀ (seen : List (Int × String × ℚ)) (B : List LRow),
      dedupGo seen (A ++ B) = dedupGo seen A ++ dedupGo (dedupSeen seen A) B := by
  induction A with
  | nil => intro seen B; simp [dedupGo, dedupSeen]
  | cons a as ih =>
    intro seen B
    by_cases hs : rowKey a ∈ seen
    · simp only [List.cons_append, dedupGo, dedupSeen, if_pos hs]
      exact ih seen B
    · simp only [List.cons_append, dedupGo, dedupSeen, if_neg hs,
        List.append_eq]
      rw [ih (rowKey a :: seen) B]

theorem subset_dedupSeen :
    ∀ (A : List LRow) (seen : List (Int × String × ℚ)) (k : Int × String × ℚ),
      k ∈ seen → k ∈ dedupSeen seen A := by
  intro A
  induction A with
  | nil => intro seen k hk; simpa [dedupSeen] using hk
  | cons a as ih =>
    intro seen k hk
    by_cases hs : rowKey a ∈ seen
    · simp only [dedupSeen, if_pos hs]
      exact ih seen k hk
    · simp only [dedupSeen, if_neg hs]
      exact ih _ k (List.mem_cons_of_mem _ hk)

theorem mem_dedupSeen_of_mem {r : LRow} :
    ∀ (A : List LRow) (seen : List (Int × String × ℚ)),
      r ∈ A → rowKey r ∈ dedupSeen seen A := by
  intro A
  induction A with
  | nil => intro seen h; exact absurd h (List.not_mem_nil r)
  | cons a as ih =>
    intro seen h
    by_cases hs : rowKey a ∈ seen
    · simp only [dedupSeen, if_pos hs]
      rcases List.mem_cons.mp h with rfl | h
      · exact subset_dedupSeen as seen _ hs
      · exact ih seen h
    · simp only [dedupSeen, if_neg hs]
      rcases List.mem_cons.mp h with rfl | h
      · exact subset_dedupSeen as _ _ (List.mem_cons_self _ _)
      · exact ih _ h

theorem dedupGo_nil_of_seen :
    ∀ (B : List LRow) (seen : List (Int × String × ℚ)),
      (∀ r ∈ B, rowKey r ∈ seen) → dedupGo seen B = [] := by
  intro B
  induction B with
  | nil => intro seen _; rfl
  | cons b bs ih =>
    intro seen h
    simp only [dedupGo, if_pos (h b (List.mem_cons_self b bs))]
    exact ih seen (fun r hr => h r (List.mem_cons_of_mem b hr))

theorem dedupGo_id_of_pairwise :
    ∀ (A : List LRow) (seen : List (Int × String × ℚ)),
      A.Pairwise (fun a b => rowKey a ≠ rowKey b) →
      (∀ r ∈ A, rowKey r ∉ seen) → dedupGo seen A = A := by
  intro A
  induction A with
  | nil => intro seen _ _; rfl
  | cons a as ih =>
    intro seen hp hns
    obtain ⟨hhead, htail⟩ := List.pairwise_cons.mp hp
    simp only [dedupGo, if_neg (hns a (List.mem_cons_self a as))]
    rw [ih _ htail]
    intro r hr
    simp only [List.mem_cons]
    push_neg
    refine ⟨?_, hns r (List.mem_cons_of_mem a hr)⟩
    intro he
    exact hhead r hr he.symm

/-- C6: merging an identical batch (with pairwise-distinct
`(date, description, amount)` triples) into an empty ledger twice yields a
ledger with exactly the batch's row count.  The categorization step run
between the two imports is modelled by an arbitrary key-preserving row map
`f` (`categorize_transactions` only adds/overwrites the `category` and
`subcategory` columns). -/
theorem C6_import_twice_idempotent (batch : List LRow) (f : LRow → LRow)
    (hf : ∀ r, rowKey (f r) = rowKey r)
    (hd : batch.Pairwise (fun a b => rowKey a ≠ rowKey b)) :
    (mergeLedger ((mergeLedger [] batch).map f) batch).length = batch.length := by
  have hsymm : ∀ {x y : LRow}, rowKey x ≠ rowKey y → rowKey y ≠ rowKey x :=
    fun h he => h he.symm
  have hperm1 : List.Perm (sortDesc batch) batch :=
    List.perm_insertionSort dateDesc batch
  have hm1 : mergeLedger [] batch = sortDesc batch := by simp [mergeLedger]
  rcases eq_or_ne batch [] with rfl | hbne
  · simp [mergeLedger, sortDesc, List.insertionSort, dedupKeepFirst, dedupGo]
  · have hmapped : ((mergeLedger [] batch).map f) ≠ [] := by
      rw [hm1]
      intro hcon
      exact hbne (List.eq_nil_of_length_eq_zero
        (by simpa [hperm1.length_eq] using congrArg List.length hcon))
    rw [mergeLedger, if_neg hmapped, hm1]
    have hlen1 : (sortDesc (dedupKeepFirst ((sortDesc batch).map f ++ batch))).length
        = (dedupKeepFirst ((sortDesc batch).map f ++ batch)).length :=
      (List.perm_insertionSort dateDesc _).length_eq
    rw [hlen1]
    have hpair : ((sortDesc batch).map f).Pairwise
        (fun a b => rowKey a ≠ rowKey b) := by
      rw [List.pairwise_map]
      have hsorted : (sortDesc batch).Pairwise (fun a b => rowKey a ≠ rowKey b) :=
        (List.Perm.pairwise_iff hsymm hperm1).mpr hd
      exact hsorted.imp (by intro a b h; rw [hf a, hf b]; exact h)
    have hA : dedupGo [] ((sortDesc batch).map f) = (sortDesc batch).map f :=
      dedupGo_id_of_pairwise _ [] hpair (by intro r _; exact List.not_mem_nil _)
    have hB : dedupGo (dedupSeen [] ((sortDesc batch).map f)) batch = [] := by
      apply dedupGo_nil_of_seen
      intro r hr
      have hrs : f r ∈ (sortDesc batch).map f :=
        List.mem_map_of_mem f ((List.mem_insertionSort dateDesc).mpr hr)
      have := mem_dedupSeen_of_mem ((sortDesc batch).map f) [] hrs
      rwa [hf r] at this
    rw [dedupKeepFirst, dedupGo_append, hA, hB, List.append_nil,
      List.length_map, hperm1.length_eq]

/-- Witness for C6: importing a concrete two-row batch twice (with the
identity as the key-preserving categorization map) yields two rows. -/
theorem C6_import_twice_witness :
    ((∀ r : LRow, rowKey (id r) = rowKey r) ∧
      ([⟨1, "a", 5, ""⟩, ⟨2, "b", 7, ""⟩] : List LRow).Pairwise
        (fun a b => rowKey a ≠ rowKey b)) ∧
    (mergeLedger ((mergeLedger [] [⟨1, "a", 5, ""⟩, ⟨2, "b", 7, ""⟩]).map id)
        [⟨1, "a", 5, ""⟩, ⟨2, "b", 7, ""⟩]).length
      = ([⟨1, "a", 5, ""⟩, ⟨2, "b", 7, ""⟩] : List LRow).length :=
  ⟨⟨fun _ => rfl, by simp [rowKey]⟩,
    C6_import_twice_idempotent [⟨1, "a", 5, ""⟩, ⟨2, "b", 7, ""⟩] id
      (fun _ => rfl) (by simp [rowKey])⟩

/-! ## String machinery

Python strings are modelled as `List Char` (ASCII).  `lowerL` is `str.lower`,
`stripL` is `str.strip`, `splitWs` is no-argument `str.split`, `collapseL` is
`' '.join(s.split())`, `containsSub pat s` is Python `pat in s`, and
`wholeWordIn v s` is `re.search(r'\b' + re.escape(v) + r'\b', s)` — a
word-boundary holds between a word character (`[A-Za-z0-9_]`) and a non-word
character or string edge. -/

def isSpaceC (c : Char) : Bool :=
  c == ' ' || c == '\t' || c == '\n' || c == '\r' || c == '\x0b' || c == '\x0c'

def lowerL (s : List Char) : List Char :=
  s.map Char.toLower

def stripL (s : List Char) : List Char :=
  ((s.dropWhile isSpaceC).reverse.dropWhile isSpaceC).reverse

def splitWsAux : List Char → List Char → List (List Char)
  | acc, [] => if acc = [] then [] else [acc.reverse]
  | acc, c :: cs =>
    if isSpaceC c then
      if acc = [] then splitWsAux [] cs else acc.reverse :: splitWsAux [] cs
    else splitWsAux (c :: acc) cs

def splitWs (s : List Char) : List (List Char) :=
  splitWsAux [] s

def joinSpace : List (List Char) → List Char
  | [] => []
  | [w] => w
  | w :: ws => w ++ ' ' :: joinSpace ws

def collapseL (s : List Char) : List Char :=
  joinSpace (splitWs s)

def listStartsWith : List Char → List Char → Bool
  | [], _ => true
  | _ :: _, [] => false
  | p :: ps, s :: ss => p == s && listStartsWith ps ss

/-- Python `pat in s` (contiguous substring). -/
def containsSub (pat : List Char) : List Char → Bool
  | [] => listStartsWith pat []
  | c :: cs => listStartsWith pat (c :: cs) || containsSub pat cs

/-- `pat in s` for a string-literal pattern. -/
def inStr (pat : String) (s : List Char) : Bool :=
  containsSub pat.data s

def anyContains (pats : List String) (s : List Char) : Bool :=
  pats.any (fun p => inStr p s)

/-- Python regex word character (`\w`, ASCII). -/
def isWordC (c : Char) : Bool :=
  c.isAlpha || c.isDigit || c == '_'

def wordCharAt (s : List Char) (i : Nat) : Bool :=
  match s.drop i with
  | [] => false
  | c :: _ => isWordC c

/-- `\b` holds at position `p` iff exactly one side of `p` is a word
character (a string edge counting as non-word). -/
def boundaryAt (s : List Char) (p : Nat) : Bool :=
  (if p = 0 then false else wordCharAt s (p - 1)) != wordCharAt s p

def wholeWordAt (s v : List Char) (i : Nat) : Bool :=
  listStartsWith v (s.drop i) && boundaryAt s i && boundaryAt s (i + v.length)

/-- `re.search(r'\b' + re.escape(v) + r'\b', s) is not None`. -/
def wholeWordIn (v s : List Char) : Bool :=
  (List.range (s.length + 1)).any (fun i => wholeWordAt s v i)

/-- `len(set(a) & set(b))` for word lists: distinct shared words. -/
def setOverlap (a b : List (List Char)) : Nat :=
  (a.dedup.filter (fun w => decide (w ∈ b))).length

/-! ## Vendor database and `match_vendor`
(`src/utils/vendor_database.py`) -/

/-- One `VENDOR_DATABASE` entry: merchant pattern, category, subcategory. -/
structure VEntry where
  vname : String
  vcat : String
  vsub : String
deriving DecidableEq

def vendorDBChunk0 : List VEntry :=
  [ ⟨"amex", "Bills & Payments", "Credit Card"⟩
  , ⟨"american express", "Bills & Payments", "Credit Card"⟩
  , ⟨"mastercard", "Bills & Payments", "Credit Card"⟩
  , ⟨"visa", "Bills & Payments", "Credit Card"⟩
  , ⟨"paypal", "Shopping", "Online Services"⟩
  , ⟨"stripe", "Shopping", "Online Services"⟩
  , ⟨"square", "Shopping", "Retail"⟩
  , ⟨"venmo", "Transfer", "Money Transfer"⟩
  , ⟨"zelle", "Transfer", "Money Transfer"⟩
  , ⟨"cash app", "Transfer", "Money Transfer"⟩
  , ⟨"etoro", "Investments", "Trading Platform"⟩
  , ⟨"payward", "Savings", "Investments"⟩
  , ⟨"kraken", "Savings", "Investments"⟩
  , ⟨"direct debit", "Bills & Payments", "Direct Debit"⟩
  , ⟨"counter credit", "Income", "Deposit"⟩
  , ⟨"hmrc", "Taxes", "Income Tax"⟩
  , ⟨"hmrc gov.uk", "Bills & Payments", "Taxes"⟩
  , ⟨"tax", "Taxes", "General Tax"⟩
  , ⟨"instant saver", "Transfer", "Internal Transfer"⟩
  , ⟨"instant access", "Transfer", "Internal Transfer"⟩
  , ⟨"saver account", "Transfer", "Internal Transfer"⟩
  , ⟨"isa", "Savings", "ISA"⟩
  , ⟨"cash isa", "Savings", "ISA"⟩
  , ⟨"stocks and shares isa", "Savings", "ISA"⟩
  , ⟨"barclays", "Transfer", "Bank Transfer"⟩
  , ⟨"hsbc", "Transfer", "Bank Transfer"⟩
  , ⟨"lloyds", "Transfer", "Bank Transfer"⟩
  , ⟨"natwest", "Transfer", "Bank Transfer"⟩
  , ⟨"nationwide", "Insurance", "Auto Insurance"⟩
  , ⟨"santander", "Transfer", "Bank Transfer"⟩
  , ⟨"monzo", "Transfer", "Bank Transfer"⟩
  , ⟨"starling", "Transfer", "Bank Transfer"⟩
  , ⟨"revolut", "Transfer", "Bank Transfer"⟩
  , ⟨"bank transfer", "Transfer", "Bank Transfer"⟩
  , ⟨"direct deposit", "Income", "Salary/Wages"⟩
  , ⟨"interest", "Income", "Interest"⟩
  , ⟨"dividend", "Income", "Dividends"⟩
  , ⟨"vanguard", "Investments", "Brokerage"⟩
  , ⟨"fidelity", "Investments", "Brokerage"⟩
  , ⟨"schwab", "Investments", "Brokerage"⟩
  ]

def vendorDBChunk1 : List VEntry :=
  [ ⟨"robinhood", "Investments", "Brokerage"⟩
  , ⟨"etrade", "Investments", "Brokerage"⟩
  , ⟨"td ameritrade", "Investments", "Brokerage"⟩
  , ⟨"ramco", "Income", "Business Income"⟩
  , ⟨"ramco manor park", "Income", "Business Income"⟩
  , ⟨"jn desai limited", "Income", "Business Income"⟩
  , ⟨"saver", "Transfer", "Internal Transfer"⟩
  , ⟨"astrenska", "Income", "Insurance Payout"⟩
  , ⟨"astrenska insuranc", "Income", "Insurance Payout"⟩
  , ⟨"tesco", "Food", "Groceries"⟩
  , ⟨"sainsbury", "Food", "Groceries"⟩
  , ⟨"asda", "Food", "Groceries"⟩
  , ⟨"waitrose", "Food", "Groceries"⟩
  , ⟨"morrisons", "Food", "Groceries"⟩
  , ⟨"aldi", "Food", "Groceries"⟩
  , ⟨"lidl", "Food", "Groceries"⟩
  , ⟨"kroger", "Food", "Groceries"⟩
  , ⟨"walmart", "Food", "Groceries"⟩
  , ⟨"target", "Shopping", "Department Store"⟩
  , ⟨"safeway", "Food", "Groceries"⟩
  , ⟨"trader joe", "Food", "Groceries"⟩
  , ⟨"whole foods", "Food", "Groceries"⟩
  , ⟨"costco", "Food", "Groceries"⟩
  , ⟨"sams club", "Food", "Groceries"⟩
  , ⟨"mcdonalds", "Food", "Fast Food"⟩
  , ⟨"mcdonald\x27s", "Food", "Fast Food"⟩
  , ⟨"burger king", "Food", "Fast Food"⟩
  , ⟨"wendys", "Food", "Fast Food"⟩
  , ⟨"starbucks", "Food", "Coffee Shops"⟩
  , ⟨"costa", "Food", "Coffee Shops"⟩
  , ⟨"pret", "Food", "Coffee Shops"⟩
  , ⟨"subway", "Transportation", "Public Transit"⟩
  , ⟨"kfc", "Food", "Fast Food"⟩
  , ⟨"taco bell", "Food", "Fast Food"⟩
  , ⟨"pizza hut", "Food", "Dining"⟩
  , ⟨"dominos", "Food", "Dining"⟩
  , ⟨"domino\x27s", "Food", "Dining"⟩
  , ⟨"chipotle", "Food", "Dining"⟩
  , ⟨"nandos", "Food", "Dining"⟩
  , ⟨"greggs", "Food", "Fast Food"⟩
  ]

def vendorDBChunk2 : List VEntry :=
  [ ⟨"ubereats", "Food", "Food Delivery"⟩
  , ⟨"uber eats", "Food", "Food Delivery"⟩
  , ⟨"doordash", "Food", "Food Delivery"⟩
  , ⟨"grubhub", "Food", "Food Delivery"⟩
  , ⟨"deliveroo", "Food", "Food Delivery"⟩
  , ⟨"just eat", "Food", "Food Delivery"⟩
  , ⟨"amazon", "Shopping", "Online Shopping"⟩
  , ⟨"ebay", "Shopping", "Online Shopping"⟩
  , ⟨"etsy", "Shopping", "Online Shopping"⟩
  , ⟨"apple", "Shopping", "Electronics"⟩
  , ⟨"best buy", "Shopping", "Electronics"⟩
  , ⟨"ikea", "Shopping", "Home Furnishings"⟩
  , ⟨"wayfair", "Shopping", "Home Furnishings"⟩
  , ⟨"home depot", "Shopping", "Home Improvement"⟩
  , ⟨"lowes", "Shopping", "Home Improvement"⟩
  , ⟨"b&q", "Shopping", "Home Improvement"⟩
  , ⟨"homebase", "Shopping", "Home Improvement"⟩
  , ⟨"marshalls", "Shopping", "Clothing"⟩
  , ⟨"tj maxx", "Shopping", "Clothing"⟩
  , ⟨"tk maxx", "Shopping", "Clothing"⟩
  , ⟨"foot locker", "Shopping", "Clothing"⟩
  , ⟨"primark", "Shopping", "Clothing"⟩
  , ⟨"zara", "Shopping", "Clothing"⟩
  , ⟨"h&m", "Shopping", "Clothing"⟩
  , ⟨"asos", "Shopping", "Clothing"⟩
  , ⟨"next", "Shopping", "Clothing"⟩
  , ⟨"marks & spencer", "Shopping", "Department Store"⟩
  , ⟨"m&s", "Shopping", "Department Store"⟩
  , ⟨"john lewis", "Shopping", "Department Store"⟩
  , ⟨"argos", "Shopping", "Department Store"⟩
  , ⟨"debenhams", "Shopping", "Department Store"⟩
  , ⟨"uber", "Transportation", "Taxi"⟩
  , ⟨"lyft", "Transportation", "Taxi"⟩
  , ⟨"bolt", "Transportation", "Taxi"⟩
  , ⟨"gett", "Transportation", "Taxi"⟩
  , ⟨"free now", "Transportation", "Taxi"⟩
  , ⟨"black cab", "Transportation", "Taxi"⟩
  , ⟨"taxi", "Transportation", "Taxi"⟩
  , ⟨"tube", "Transportation", "Public Transit"⟩
  , ⟨"tfl", "Transportation", "Public Transit"⟩
  ]

def vendorDBChunk3 : List VEntry :=
  [ ⟨"transport for london", "Transportation", "Public Transit"⟩
  , ⟨"train", "Transportation", "Public Transit"⟩
  , ⟨"bus", "Transportation", "Public Transit"⟩
  , ⟨"oyster", "Transportation", "Public Transit"⟩
  , ⟨"underground", "Transportation", "Public Transit"⟩
  , ⟨"avis", "Transportation", "Car Rental"⟩
  , ⟨"hertz", "Transportation", "Car Rental"⟩
  , ⟨"enterprise", "Transportation", "Car Rental"⟩
  , ⟨"zipcar", "Transportation", "Car Rental"⟩
  , ⟨"national rail", "Transportation", "Public Transit"⟩
  , ⟨"british rail", "Transportation", "Public Transit"⟩
  , ⟨"amtrak", "Transportation", "Public Transit"⟩
  , ⟨"airline", "Travel", "Flights"⟩
  , ⟨"british airways", "Travel", "Flights"⟩
  , ⟨"easyjet", "Travel", "Flights"⟩
  , ⟨"ryanair", "Travel", "Flights"⟩
  , ⟨"delta", "Travel", "Flights"⟩
  , ⟨"american airlines", "Travel", "Flights"⟩
  , ⟨"united", "Travel", "Flights"⟩
  , ⟨"southwest", "Travel", "Flights"⟩
  , ⟨"jet blue", "Travel", "Flights"⟩
  , ⟨"virgin atlantic", "Travel", "Flights"⟩
  , ⟨"emirates", "Travel", "Flights"⟩
  , ⟨"hotel", "Travel", "Accommodation"⟩
  , ⟨"hilton", "Travel", "Accommodation"⟩
  , ⟨"marriott", "Travel", "Accommodation"⟩
  , ⟨"airbnb", "Travel", "Accommodation"⟩
  , ⟨"booking.com", "Travel", "Accommodation"⟩
  , ⟨"expedia", "Travel", "Travel Services"⟩
  , ⟨"trivago", "Travel", "Travel Services"⟩
  , ⟨"rent", "Housing", "Rent"⟩
  , ⟨"mortgage", "Housing", "Mortgage"⟩
  , ⟨"council tax", "Housing", "Property Tax"⟩
  , ⟨"property tax", "Taxes", "Property Tax"⟩
  , ⟨"water", "Utilities", "Water"⟩
  , ⟨"electric", "Utilities", "Electricity"⟩
  , ⟨"electricity", "Utilities", "Electricity"⟩
  , ⟨"gas", "Utilities", "Gas"⟩
  , ⟨"heating", "Utilities", "Gas"⟩
  , ⟨"internet", "Utilities", "Internet"⟩
  ]

def vendorDBChunk4 : List VEntry :=
  [ ⟨"broadband", "Utilities", "Internet"⟩
  , ⟨"wifi", "Utilities", "Internet"⟩
  , ⟨"sewage", "Utilities", "Water"⟩
  , ⟨"waste", "Utilities", "Waste Management"⟩
  , ⟨"comcast", "Utilities", "Internet"⟩
  , ⟨"xfinity", "Utilities", "Internet"⟩
  , ⟨"verizon", "Utilities", "Phone"⟩
  , ⟨"at&t", "Utilities", "Phone"⟩
  , ⟨"t-mobile", "Utilities", "Phone"⟩
  , ⟨"british gas", "Utilities", "Gas"⟩
  , ⟨"british telecom", "Utilities", "Phone"⟩
  , ⟨"bt", "Utilities", "Internet"⟩
  , ⟨"eon", "Utilities", "Electricity"⟩
  , ⟨"edf", "Utilities", "Electricity"⟩
  , ⟨"scottish power", "Utilities", "Electricity"⟩
  , ⟨"thames water", "Utilities", "Water"⟩
  , ⟨"severn trent", "Utilities", "Water"⟩
  , ⟨"virgin media", "Utilities", "Internet"⟩
  , ⟨"sky", "Utilities", "TV/Internet"⟩
  , ⟨"vodafone", "Utilities", "Phone"⟩
  , ⟨"o2", "Utilities", "Phone"⟩
  , ⟨"ee", "Utilities", "Phone"⟩
  , ⟨"three", "Utilities", "Phone"⟩
  , ⟨"giffgaff", "Utilities", "Phone"⟩
  , ⟨"sprint", "Utilities", "Phone"⟩
  , ⟨"cricket", "Utilities", "Phone"⟩
  , ⟨"boost mobile", "Utilities", "Phone"⟩
  , ⟨"netflix", "Entertainment", "Streaming Services"⟩
  , ⟨"hulu", "Entertainment", "Streaming Services"⟩
  , ⟨"disney+", "Entertainment", "Streaming Services"⟩
  , ⟨"amazon prime", "Entertainment", "Streaming Services"⟩
  , ⟨"spotify", "Entertainment", "Music"⟩
  , ⟨"apple music", "Entertainment", "Music"⟩
  , ⟨"youtube", "Entertainment", "Streaming Services"⟩
  , ⟨"youtube premium", "Entertainment", "Streaming Services"⟩
  , ⟨"hbo", "Entertainment", "Streaming Services"⟩
  , ⟨"paramount+", "Entertainment", "Streaming Services"⟩
  , ⟨"peacock", "Entertainment", "Streaming Services"⟩
  , ⟨"now tv", "Entertainment", "Streaming Services"⟩
  , ⟨"cinema", "Entertainment", "Movies"⟩
  ]

def vendorDBChunk5 : List VEntry :=
  [ ⟨"odeon", "Entertainment", "Movies"⟩
  , ⟨"vue", "Entertainment", "Movies"⟩
  , ⟨"cineworld", "Entertainment", "Movies"⟩
  , ⟨"amc", "Entertainment", "Movies"⟩
  , ⟨"regal", "Entertainment", "Movies"⟩
  , ⟨"cinemark", "Entertainment", "Movies"⟩
  , ⟨"concert", "Entertainment", "Events"⟩
  , ⟨"ticketmaster", "Entertainment", "Events"⟩
  , ⟨"stubhub", "Entertainment", "Events"⟩
  , ⟨"seetickets", "Entertainment", "Events"⟩
  , ⟨"bupa", "Healthcare", "Health Insurance"⟩
  , ⟨"bupa central", "Healthcare", "Health Insurance"⟩
  , ⟨"eyecare payments", "Healthcare", "Vision"⟩
  , ⟨"eyecare", "Healthcare", "Vision"⟩
  , ⟨"aig life", "Insurance", "Life Insurance"⟩
  , ⟨"royal london", "Insurance", "Life Insurance"⟩
  , ⟨"clubwise", "Healthcare", "Fitness"⟩
  , ⟨"etika", "Healthcare", "Medical Services"⟩
  , ⟨"blue rewards", "Banking", "Rewards Program"⟩
  , ⟨"axa", "Healthcare", "Health Insurance"⟩
  , ⟨"cvs", "Healthcare", "Pharmacy"⟩
  , ⟨"walgreens", "Healthcare", "Pharmacy"⟩
  , ⟨"boots", "Healthcare", "Pharmacy"⟩
  , ⟨"lloyds pharmacy", "Healthcare", "Pharmacy"⟩
  , ⟨"superdrug", "Healthcare", "Pharmacy"⟩
  , ⟨"nhs", "Healthcare", "Medical Services"⟩
  , ⟨"hospital", "Healthcare", "Medical Services"⟩
  , ⟨"clinic", "Healthcare", "Medical Services"⟩
  , ⟨"doctor", "Healthcare", "Medical Services"⟩
  , ⟨"dentist", "Healthcare", "Dental"⟩
  , ⟨"optician", "Healthcare", "Vision"⟩
  , ⟨"vision express", "Healthcare", "Vision"⟩
  , ⟨"specsavers", "Healthcare", "Vision"⟩
  , ⟨"gym", "Healthcare", "Fitness"⟩
  , ⟨"fitness", "Healthcare", "Fitness"⟩
  , ⟨"pure gym", "Healthcare", "Fitness"⟩
  , ⟨"virgin active", "Healthcare", "Fitness"⟩
  , ⟨"la fitness", "Healthcare", "Fitness"⟩
  , ⟨"planet fitness", "Healthcare", "Fitness"⟩
  , ⟨"24 hour fitness", "Healthcare", "Fitness"⟩
  ]

def vendorDBChunk6 : List VEntry :=
  [ ⟨"gold\x27s gym", "Healthcare", "Fitness"⟩
  , ⟨"equinox", "Healthcare", "Fitness"⟩
  , ⟨"insurance", "Insurance", "General Insurance"⟩
  , ⟨"geico", "Insurance", "Auto Insurance"⟩
  , ⟨"state farm", "Insurance", "Auto Insurance"⟩
  , ⟨"progressive", "Insurance", "Auto Insurance"⟩
  , ⟨"allstate", "Insurance", "Auto Insurance"⟩
  , ⟨"liberty mutual", "Insurance", "Auto Insurance"⟩
  , ⟨"aviva", "Insurance", "General Insurance"⟩
  , ⟨"direct line", "Insurance", "Auto Insurance"⟩
  , ⟨"admiral", "Insurance", "Auto Insurance"⟩
  , ⟨"churchill", "Insurance", "Home Insurance"⟩
  , ⟨"hastings", "Insurance", "Auto Insurance"⟩
  , ⟨"legal & general", "Insurance", "Life Insurance"⟩
  , ⟨"prudential", "Insurance", "Life Insurance"⟩
  , ⟨"university", "Education", "Tuition"⟩
  , ⟨"college", "Education", "Tuition"⟩
  , ⟨"school", "Education", "Tuition"⟩
  , ⟨"student loans", "Education", "Student Loans"⟩
  , ⟨"student loan", "Education", "Student Loans"⟩
  , ⟨"sallie mae", "Education", "Student Loans"⟩
  , ⟨"navient", "Education", "Student Loans"⟩
  , ⟨"great lakes", "Education", "Student Loans"⟩
  , ⟨"nelnet", "Education", "Student Loans"⟩
  , ⟨"chegg", "Education", "Books & Supplies"⟩
  , ⟨"textbooks", "Education", "Books & Supplies"⟩
  , ⟨"coursera", "Education", "Online Courses"⟩
  , ⟨"udemy", "Education", "Online Courses"⟩
  , ⟨"skillshare", "Education", "Online Courses"⟩
  , ⟨"student finance", "Education", "Student Loans"⟩
  , ⟨"payroll", "Income", "Salary/Wages"⟩
  , ⟨"salary", "Income", "Salary/Wages"⟩
  , ⟨"wages", "Income", "Salary/Wages"⟩
  , ⟨"commission", "Income", "Commission"⟩
  , ⟨"freelance", "Income", "Self-Employment"⟩
  , ⟨"consulting", "Income", "Self-Employment"⟩
  , ⟨"upwork", "Income", "Self-Employment"⟩
  , ⟨"fiverr", "Income", "Self-Employment"⟩
  , ⟨"business", "Business", "General Business"⟩
  , ⟨"advertising", "Business", "Marketing"⟩
  ]

def vendorDBChunk7 : List VEntry :=
  [ ⟨"office", "Business", "Office Supplies"⟩
  , ⟨"staples", "Business", "Office Supplies"⟩
  , ⟨"office depot", "Business", "Office Supplies"⟩
  , ⟨"quickbooks", "Business", "Accounting"⟩
  , ⟨"xero", "Business", "Accounting"⟩
  , ⟨"freshbooks", "Business", "Accounting"⟩
  , ⟨"mailchimp", "Business", "Marketing"⟩
  , ⟨"godaddy", "Business", "Web Services"⟩
  , ⟨"squarespace", "Business", "Web Services"⟩
  , ⟨"wix", "Business", "Web Services"⟩
  , ⟨"zoom", "Business", "Software & Services"⟩
  , ⟨"microsoft", "Business", "Software & Services"⟩
  , ⟨"adobe", "Business", "Software & Services"⟩
  , ⟨"google", "Business", "Software & Services"⟩
  , ⟨"atm", "Cash", "ATM Withdrawal"⟩
  , ⟨"fee", "Fees & Charges", "Service Fee"⟩
  , ⟨"interest fee", "Fees & Charges", "Interest"⟩
  , ⟨"overdraft", "Fees & Charges", "Bank Fees"⟩
  , ⟨"service charge", "Fees & Charges", "Bank Fees"⟩
  , ⟨"maintenance fee", "Fees & Charges", "Bank Fees"⟩
  , ⟨"late fee", "Fees & Charges", "Late Payment"⟩
  , ⟨"irs", "Taxes", "Income Tax"⟩
  , ⟨"income tax", "Taxes", "Income Tax"⟩
  , ⟨"charity", "Giving", "Charitable Donations"⟩
  , ⟨"donation", "Giving", "Charitable Donations"⟩
  , ⟨"gift", "Giving", "Gifts"⟩
  , ⟨"birthday", "Giving", "Gifts"⟩
  , ⟨"wedding", "Giving", "Gifts"⟩
  ]

/-- The effective `VENDOR_DATABASE` dict of `src/utils/vendor_database.py`
in Python dict order: a duplicated key keeps its first insertion position
and its last assigned value (duplicated keys: hmrc, tax, instant saver,
nationwide, target, subway, property tax). -/
def VENDOR_DATABASE : List VEntry :=
  vendorDBChunk0 ++ vendorDBChunk1 ++ vendorDBChunk2 ++ vendorDBChunk3 ++ vendorDBChunk4 ++ vendorDBChunk5 ++ vendorDBChunk6 ++ vendorDBChunk7

/-- The loop `for vendor, categorization in VENDOR_DATABASE.items(): if vendor
in desc_lower: return categorization` (used inside the Direct Debit
subcategory branch). -/
def firstContainsVendor (dl : List Char) : Option (String × String) :=
  VENDOR_DATABASE.findSome? fun ve =>
    if containsSub ve.vname.data dl then some (ve.vcat, ve.vsub) else none

/-- The whole-word scan `re.search(r'\b' + re.escape(vendor) + r'\b',
desc_lower)` over the database in order, returning the first match. -/
def firstWholeWordVendor (dl : List Char) : Option (String × String) :=
  VENDOR_DATABASE.findSome? fun ve =>
    if wholeWordIn ve.vname.data dl then some (ve.vcat, ve.vsub) else none

/-- The multi-word contains scan (vendors containing a space, substring
match, lines 583-588). -/
def firstMultiwordVendor (dl : List Char) : Option (String × String) :=
  VENDOR_DATABASE.findSome? fun ve =>
    if ve.vname.data.contains ' ' && containsSub ve.vname.data dl then
      some (ve.vcat, ve.vsub)
    else none

/-- The word-overlap partial matching fold (lines 590-619): track best
overlap score, best vendor length (to break ties towards longer names) and
best categorization. -/
def partialFold (dwords : List (List Char)) :
    List VEntry → Nat → Nat → Option (String × String) →
    Nat × Option (String × String)
  | [], bestScore, _, best => (bestScore, best)
  | ve :: ves, bestScore, bestLen, best =>
    let vset := (splitWs ve.vname.data).dedup
    let overlap := setOverlap vset dwords
    let required := if vset.length > 2 then 2 else 1
    if (overlap > bestScore || (overlap == bestScore && ve.vname.length > bestLen))
        && overlap ≥ required then
      partialFold dwords ves overlap ve.vname.length (some (ve.vcat, ve.vsub))
    else
      partialFold dwords ves bestScore bestLen best

def partialMatch (dl : List Char) : Option (String × String) :=
  let res := partialFold (splitWs dl) VENDOR_DATABASE 0 0 none
  if res.1 > 0 then res.2 else none

/-- The `counter credit` subcategory branch (lines 422-451); it always
returns. -/
def counterCreditBranch (dl : List Char) : String × String :=
  if inStr "ramco" dl then ("Income", "Business Income")
  else if inStr "jn desai limited" dl then ("Income", "Business Income")
  else if inStr "astrenska" dl then ("Income", "Insurance Payout")
  else if inStr "tax" dl || inStr "instant saver" dl || inStr "instant access" dl then
    ("Transfer", "Internal Transfer")
  else if anyContains ["saver", "savings", "isa", "transfer to", "transfer from",
      "instant access", "desai", "jay", "bank transfer"] dl then
    ("Transfer", "Internal Transfer")
  else if inStr "limited" dl || inStr "ltd" dl || inStr "llc" dl then
    ("Income", "Business Income")
  else if inStr "salary" dl || inStr "wage" dl || inStr "payroll" dl then
    ("Income", "Salary/Wages")
  else ("Income", "Other Income")

/-- The `direct debit` subcategory branch (lines 454-490); it always
returns. -/
def directDebitBranch (dl : List Char) : String × String :=
  if inStr "bupa" dl then ("Healthcare", "Health Insurance")
  else if inStr "american express" dl || inStr "amex" dl then
    ("Bills & Payments", "Credit Card")
  else if inStr "eyecare" dl then ("Healthcare", "Vision")
  else if inStr "aig life" dl then ("Insurance", "Life Insurance")
  else if inStr "royal london" dl then ("Insurance", "Life Insurance")
  else if inStr "clubwise" dl then ("Healthcare", "Fitness")
  else if inStr "etika" dl then ("Entertainment", "Subscription Services")
  else
    match firstContainsVendor dl with
    | some cs => cs
    | none => ("Bills & Payments", "Direct Debit")

/-- The `card purchase` subcategory branch (lines 493-508); may fall
through (`none`). -/
def cardPurchaseBranch (dl : List Char) : Option (String × String) :=
  if inStr "apple.com" dl then some ("Entertainment", "Subscription Services")
  else if inStr "hmrc" dl || inStr "gov.uk" dl then
    some ("Bills & Payments", "Tax Payments")
  else if inStr "mcdonalds" dl then some ("Food", "Fast Food")
  else if inStr "sainsburys" dl then some ("Food", "Groceries")
  else none

/-- The Barclays `debit == subcat_lower` branch (lines 511-522); may fall
through. -/
def debitBranch (dl : List Char) : Option (String × String) :=
  if inStr "blue rewards" dl then some ("Bills & Payments", "Bank Fees")
  else if inStr "mcdonalds" dl then some ("Food", "Fast Food")
  else if inStr "sainsburys" dl then some ("Food", "Groceries")
  else none

/-- The `funds transfer` subcategory branch (lines 525-546); may fall
through. -/
def fundsTransferBranch (dl : List Char) : Option (String × String) :=
  if inStr "etoro" dl then some ("Investments", "Trading Platform")
  else if inStr "hmrc" dl || inStr "gov.uk" dl then
    some ("Bills & Payments", "Tax Payments")
  else if inStr "tax" dl then some ("Transfer", "Internal Transfer")
  else if inStr "payward" dl then some ("Savings", "Investments")
  else if inStr "jay" dl || inStr "desai" dl || inStr "transfer to" dl ||
      inStr "transfer from" dl || inStr "instant saver" dl ||
      inStr "savings account" dl then
    some ("Transfer", "Internal Transfer")
  else none

/-- The sequential UK-bank subcategory branches (lines 417-546), applied to
the (lowered, stripped) subcategory `sl`; `none` means every branch fell
through.  Within this block the Python code never returns `None`, so `none`
faithfully encodes fall-through. -/
def subcatBranch (dl sl : List Char) : Option (String × String) :=
  if inStr "counter credit" sl then some (counterCreditBranch dl)
  else if inStr "direct debit" sl then some (directDebitBranch dl)
  else if inStr "card purchase" sl && (cardPurchaseBranch dl).isSome then
    cardPurchaseBranch dl
  else if sl = "debit".data && (debitBranch dl).isSome then
    debitBranch dl
  else if inStr "funds transfer" sl then fundsTransferBranch dl
  else none

/-- The tail of `match_vendor` (lines 548-622): UK special cases, the refund
rule, pay keywords, whole-word scan, multi-word contains scan and the
partial-overlap matching. -/
def mvTail (dl : List Char) : Option (String × String) :=
  if inStr "instant saver" dl || (inStr "saver" dl && inStr "tax" dl) then
    some ("Transfer", "Internal Transfer")
  else if inStr "salary" dl || inStr "wages" dl then
    some ("Income", "Salary/Wages")
  else if inStr "dividend" dl then some ("Income", "Dividends")
  else if inStr "interest" dl && !(inStr "loan" dl || inStr "mortgage" dl) then
    some ("Income", "Interest")
  else if inStr "refund" dl then
    match firstWholeWordVendor dl with
    | some cs => some (cs.1, "Refund")
    | none => some ("Income", "Refund")
  else if anyContains ["pay", "payroll", "salary", "wage", "income",
      "direct deposit"] dl then
    some ("Income", "Salary/Wages")
  else
    match firstWholeWordVendor dl with
    | some cs => some cs
    | none =>
      match firstMultiwordVendor dl with
      | some cs => some cs
      | none => partialMatch dl

/-- Python truthiness of the (possibly inferred) subcategory string. -/
def subcatTruthy : Option String → Bool
  | none => false
  | some s => s.data ≠ []

/-- Lines 409-415: infer "Direct Debit" / "Card Purchase" from the
description when the subcategory is missing or `'Other'`. -/
def inferSubcat (dl : List Char) (subcategory : Option String) : Option String :=
  if !subcatTruthy subcategory || subcategory = some "Other" then
    if inStr "ddr" dl || inStr "direct debit" dl || inStr " dd" dl then
      some "Direct Debit"
    else if inStr "bcc" dl || inStr "card purchase" dl || inStr "cpm" dl then
      some "Card Purchase"
    else subcategory
  else subcategory

/-- The `if subcategory:` block (lines 417-546): run the UK-bank
subcategory branches on `subcategory.lower().strip()`, falling through to
the tail when no branch returns. -/
def mvSubcatStage (dl : List Char) : Option String → Option (String × String)
  | none => mvTail dl
  | some s =>
    match subcatBranch dl (stripL (lowerL s.data)) with
    | some cs => some cs
    | none => mvTail dl

/-- Steps of `match_vendor` from the bank-account-term check (line 405)
onward. -/
def mvStep4 (dl : List Char) (subcategory : Option String) :
    Option (String × String) :=
  if anyContains ["instant saver", "savings account", "isa", "current account"]
      dl then
    some ("Transfer", "Internal Transfer")
  else
    let subc2 := inferSubcat dl subcategory
    if subcatTruthy subc2 then mvSubcatStage dl subc2
    else mvTail dl

/-- `match_vendor(description, subcategory, amount)` of
`src/utils/vendor_database.py`.  The `amount` argument is accepted but — as
in the source — never read. -/
def match_vendor (description : String) (subcategory : Option String)
    (amount : Option ℚ) : Option (String × String) :=
  if description.data = [] then none
  else
    let dl := stripL (lowerL description.data)
    let scl0 := match subcategory with | none => [] | some s => lowerL s.data
    if anyContains ["etoro", "trading 212", "coinbase", "binance"] dl then
      some ("Investments", "Trading Platform")
    else if inStr "payward" dl || inStr "kraken" dl then
      some ("Savings", "Investments")
    else if (inStr "jay" dl || inStr "desai" dl || inStr "j n desai" dl) &&
        (containsSub "funds transfer".data scl0 || inStr "ft" dl) then
      if inStr "tax" dl then some ("Transfer", "Internal Transfer")
      else if !inStr "richard" dl && !inStr "fairchild" dl then
        some ("Transfer", "Internal Transfer")
      else mvStep4 dl subcategory
    else mvStep4 dl subcategory

/-! ## Transaction categorization
(`src/utils/data_processor.py`, `categorize_transactions`)

Rows are processed independently by the pipeline (each loop iteration reads
and writes only its own row), so the DataFrame pass is modelled row-wise.
The frame is assumed to carry the default `RangeIndex` (so `loc`/`iloc`
agree, as for a freshly parsed statement).  Which original subcategory-like
column exists in the input frame is a frame-level fact, modelled by
`SubcatMode`:

* `lowercaseCol` — the input has a `subcategory` column; the loop then reads
  `result_df`'s *overwritten* subcategory (initialised to `'Other'`, possibly
  updated to `'Investments'`/`'Internal Transfer'` by the mask passes);
* `originalCol` — the input has a `Subcategory` or `raw_subcategory` column
  (but no `subcategory`); the loop reads the original value;
* `noCol` — none of the three columns exists; `None` is passed. -/

/-- A transaction row: description, amount, and the value of the original
subcategory-like column when the frame has one (`none` also models NaN). -/
structure TxRow where
  description : String
  amount : ℚ
  rawSub : Option String
deriving DecidableEq

inductive SubcatMode where
  | lowercaseCol
  | originalCol
  | noCol
deriving DecidableEq

/-- `income_keywords` (data_processor.py lines 33-38). -/
def income_keywords : List String :=
  ["salary", "wage", "payroll", "direct deposit", "payment received",
   "dividend", "interest", "refund", "cashback", "tax return", "tax refund",
   "deposit", "credit", "income", "bonus", "commission", "pension", "benefit",
   "incoming", "credit in", "paid in", "payment in", "transfer in"]

/-- `transfer_keywords` (line 52). -/
def transfer_keywords : List String :=
  ["saver", "saving", "transfer to", "transfer from", "instant saver",
   "instant access"]

/-- `expense_keywords` (lines 58-62). -/
def expense_keywords : List String :=
  ["payment to", "purchase", "fee", "charge", "bill", "debit", "withdrawal",
   "card payment", "subscription", "order", "uber", "lyft", "online payment",
   "direct debit", "transfer to", "payment out", "paid out"]

/-- `category_keywords` (lines 93-140), in dict order. -/
def category_keywords : List (String × List String) :=
  [ ("Housing",
     ["rent", "mortgage", "home", "apartment", "electric", "water", "gas",
      "utility", "utilities", "internet", "sewage", "waste", "homeowner",
      "hoa", "maintenance", "repair", "lawn", "garden"])
  , ("Transportation",
     ["gas", "gasoline", "fuel", "uber", "lyft", "taxi", "car", "auto",
      "vehicle", "public transit", "bus", "train", "subway", "metro",
      "parking", "toll", "maintenance", "repair", "insurance", "dmv",
      "registration"])
  , ("Food",
     ["grocery", "groceries", "supermarket", "market", "food", "restaurant",
      "cafe", "coffee", "diner", "dinner", "lunch", "breakfast", "take-out",
      "takeout", "delivery", "grubhub", "doordash", "ubereats", "bakery",
      "pizza"])
  , ("Healthcare",
     ["doctor", "hospital", "medical", "dental", "dentist", "pharmacy",
      "prescription", "drug", "health", "insurance", "therapy", "gym",
      "fitness", "vitamin", "eyecare", "optometrist", "eyeglasses",
      "contacts"])
  , ("Entertainment",
     ["movie", "theatre", "theater", "concert", "music", "spotify", "netflix",
      "hulu", "disney", "amazon prime", "streaming", "game", "book", "hobby",
      "ticket", "event", "sports", "subscription"])
  , ("Shopping",
     ["amazon", "walmart", "target", "clothing", "apparel", "department",
      "store", "mall", "retail", "electronics", "computer", "phone",
      "merchandise", "ebay", "online", "purchase", "shop"])
  , ("Education",
     ["school", "university", "college", "tuition", "education", "student",
      "loan", "book", "course", "class", "degree", "training"])
  , ("Travel",
     ["hotel", "airbnb", "airline", "flight", "travel", "trip", "vacation",
      "rental car", "cruise", "tour", "booking", "resort", "airport"])
  , ("Savings",
     ["transfer", "savings", "investment", "deposit", "stock", "bond",
      "retirement", "401k", "ira", "roth", "etf", "mutual fund"])
  , ("Miscellaneous",
     ["gift", "donation", "charity", "fee", "interest", "tax", "insurance",
      "subscription", "dues", "membership", "service", "misc"])
  ]

/-- The default user categories of `src/app.py` lines 34-46. -/
def defaultCategories : List (String × List String) :=
  [ ("Income", ["Salary", "Bonus", "Interest", "Dividends", "Other Income"])
  , ("Housing", ["Rent", "Mortgage", "Utilities", "Maintenance", "Insurance"])
  , ("Transportation",
     ["Car Payment", "Fuel", "Public Transit", "Maintenance", "Insurance"])
  , ("Food", ["Groceries", "Dining Out", "Delivery", "Snacks"])
  , ("Healthcare",
     ["Insurance", "Medications", "Doctor Visits", "Gym Membership"])
  , ("Entertainment", ["Movies", "Streaming Services", "Hobbies", "Events"])
  , ("Shopping", ["Clothing", "Electronics", "Home Goods", "Personal Care"])
  , ("Education", ["Tuition", "Books", "Courses", "School Supplies"])
  , ("Travel", ["Flights", "Hotels", "Car Rental", "Activities"])
  , ("Savings", ["Emergency Fund", "Investments", "Retirement"])
  , ("Miscellaneous", ["Gifts", "Donations", "Other"])
  ]

def anyKw (kws : List String) (s : List Char) : Bool :=
  kws.any (fun k => inStr k s)

/-- The vectorized mask passes of lines 24-77, applied row-wise in order:
initialise to `Uncategorized`/`Other`, mark negative income-keyword rows as
`Income` (unless Payward), Payward rows as `Savings`/`Investments`, transfer
rows as `Transfer`/`Internal Transfer`, and reset positive expense-keyword
rows to `Uncategorized`. -/
def initialCatSub (r : TxRow) : String × String :=
  let dl := lowerL r.description.data
  let incorrect_income := decide (r.amount < 0) && anyKw income_keywords dl
  let payward := inStr "payward" dl
  let transfer := anyKw transfer_keywords dl
  let incorrect_expense := decide (0 < r.amount) && anyKw expense_keywords dl
  let cs0 := ("Uncategorized", "Other")
  let cs1 := if incorrect_income && !payward then ("Income", cs0.2) else cs0
  let cs2 := if payward then ("Savings", "Investments") else cs1
  let cs3 := if transfer then ("Transfer", "Internal Transfer") else cs2
  let cs4 := if incorrect_expense then ("Uncategorized", cs3.2) else cs3
  cs4

/-- Lines 154-161: the subcategory value passed to `match_vendor`, depending
on which original column exists (`initSub` is the row's current
`result_df` subcategory). -/
def subcatArg (mode : SubcatMode) (r : TxRow) (initSub : String) :
    Option String :=
  match mode with
  | .lowercaseCol => some initSub
  | .originalCol => r.rawSub
  | .noCol => none

/-- The keyword-scoring fold of lines 177-187: walk `category_keywords` in
order, skip categories missing from the user's categories, count substring
hits in the (original-case) description, keep the first category with a
strictly larger score. -/
def kfGo (cats : List (String × List String)) (desc : List Char) :
    List (String × List String) → Nat → Option String → Option String
  | [], _, best => best
  | (name, kws) :: rest, maxScore, best =>
    if !cats.any (fun c => c.1 = name) then kfGo cats desc rest maxScore best
    else
      let score := (kws.filter (fun k => containsSub k.data desc)).length
      if score > maxScore then kfGo cats desc rest score (some name)
      else kfGo cats desc rest maxScore best

def keywordFallback (cats : List (String × List String)) (desc : List Char) :
    Option String :=
  kfGo cats desc category_keywords 0 none

def lookupCat (cats : List (String × List String)) (name : String) :
    List String :=
  match cats.find? (fun c => c.1 = name) with
  | some c => c.2
  | none => []

/-- The subcategory-selection loop of lines 199-212: a direct substring
match breaks immediately; otherwise the subcategory with the strictly
largest word overlap wins. -/
def subcatSelGo (desc : List Char) (dwords : List (List Char)) :
    List String → Nat → Option String → Option String
  | [], _, best => best
  | sc :: rest, maxS, best =>
    let scl := lowerL sc.data
    if containsSub scl desc then some sc
    else
      let overlap := setOverlap (splitWs scl) dwords
      if overlap > maxS then subcatSelGo desc dwords rest overlap (some sc)
      else subcatSelGo desc dwords rest maxS best

/-- Lines 193-218: pick the fallback subcategory (the user's category lists
are all `list`s, so `has_subcats` is true); keep the current subcategory
when the category has no subcategories. -/
def fallbackSub (cats : List (String × List String)) (bc : String)
    (desc : String) (cur : String) : String :=
  let subcats := lookupCat cats bc
  match subcatSelGo desc.data (splitWs desc.data) subcats 0 none with
  | some s => s
  | none => match subcats with
    | [] => cur
    | s0 :: _ => s0

/-- Outcome of the keyword-fallback stage: an assigned category with its
selected subcategory, or the row's current pair when no keyword scored. -/
def processRowFallback (cats : List (String × List String)) (r : TxRow)
    (init : String × String) : Option String → String × String
  | some bc => (bc, fallbackSub cats bc r.description init.2)
  | none => init

/-- Outcome of the vendor stage: the vendor categorization if any, else the
keyword fallback. -/
def processRowVendor (cats : List (String × List String)) (r : TxRow)
    (init : String × String) : Option (String × String) → String × String
  | some cs => cs
  | none => processRowFallback cats r init (keywordFallback cats r.description.data)

/-- One iteration of the per-row loop (lines 146-218): skip rows already
categorized by the mask passes, try `match_vendor`, then the keyword
fallback. -/
def processRow (cats : List (String × List String)) (mode : SubcatMode)
    (r : TxRow) : String × String :=
  let init := initialCatSub r
  if init.1 ≠ "Uncategorized" then init
  else processRowVendor cats r init
    (match_vendor r.description (subcatArg mode r init.2) (some r.amount))

/-- The final pass of lines 220-223: a still-uncategorized row with strictly
positive amount becomes `Income`/`Other Income`. -/
def finalizeRow (cats : List (String × List String)) (mode : SubcatMode)
    (r : TxRow) : String × String :=
  let mid := processRow cats mode r
  if mid.1 = "Uncategorized" && decide (0 < r.amount) then
    ("Income", "Other Income")
  else mid

/-- `categorize_transactions(df, categories)`: the resulting `category` /
`subcategory` pair of each row, in order. -/
def categorize_transactions (cats : List (String × List String))
    (mode : SubcatMode) (rows : List TxRow) : List (String × String) :=
  rows.map (finalizeRow cats mode)

/-! ### Classifier lemmas -/

set_option maxRecDepth 40000 in
theorem vendor_db_cats : ∀ ve ∈ VENDOR_DATABASE, ve.vcat ≠ "Uncategorized" := by
  decide

theorem firstContainsVendor_cat {dl : List Char} {cs : String × String}
    (h : firstContainsVendor dl = some cs) : cs.1 ≠ "Uncategorized" := by
  obtain ⟨ve, hmem, hf⟩ := List.exists_of_findSome?_eq_some h
  revert hf
  unfold_let
  split_ifs
  · intro hf
    obtain rfl := Option.some.inj hf
    exact vendor_db_cats ve hmem
  · intro hf
    exact hf.elim

theorem firstWholeWordVendor_cat {dl : List Char} {cs : String × String}
    (h : firstWholeWordVendor dl = some cs) : cs.1 ≠ "Uncategorized" := by
  obtain ⟨ve, hmem, hf⟩ := List.exists_of_findSome?_eq_some h
  revert hf
  split_ifs
  · intro hf
    obtain rfl := Option.some.inj hf
    exact vendor_db_cats ve hmem
  · intro hf
    exact hf.elim

theorem firstMultiwordVendor_cat {dl : List Char} {cs : String × String}
    (h : firstMultiwordVendor dl = some cs) : cs.1 ≠ "Uncategorized" := by
  obtain ⟨ve, hmem, hf⟩ := List.exists_of_findSome?_eq_some h
  revert hf
  split_ifs
  · intro hf
    obtain rfl := Option.some.inj hf
    exact vendor_db_cats ve hmem
  · intro hf
    exact hf.elim

theorem partialFold_cases (dwords : List (List Char)) :
    ∀ (l : List VEntry) (s len : Nat) (best : Option (String × String)),
      (partialFold dwords l s len best).2 = best ∨
      ∃ ve ∈ l, (partialFold dwords l s len best).2 = some (ve.vcat, ve.vsub) := by
  intro l
  induction l with
  | nil => intro s len best; exact Or.inl rfl
  | cons ve ves ih =>
    intro s len best
    simp only [partialFold]
    split_ifs <;>
      first
        | (rcases ih (setOverlap (splitWs ve.vname.data).dedup dwords)
              ve.vname.length (some (ve.vcat, ve.vsub)) with h | ⟨ve2, hm, he⟩
           exacts [Or.inr ⟨ve, List.mem_cons_self ve ves, h⟩,
             Or.inr ⟨ve2, List.mem_cons_of_mem ve hm, he⟩])
        | (rcases ih s len best with h | ⟨ve2, hm, he⟩
           exacts [Or.inl h,
             Or.inr ⟨ve2, List.mem_cons_of_mem ve hm, he⟩])

theorem partialMatch_cat {dl : List Char} {cs : String × String}
    (h : partialMatch dl = some cs) : cs.1 ≠ "Uncategorized" := by
  simp only [partialMatch] at h
  split_ifs at h
  · rcases partialFold_cases (splitWs dl) VENDOR_DATABASE 0 0 none
        with h2 | ⟨ve, hm, he⟩
    · rw [h2] at h
      exact Option.noConfusion h
    · rw [he] at h
      obtain rfl := Option.some.inj h
      exact vendor_db_cats ve hm

theorem counterCreditBranch_cat (dl : List Char) :
    (counterCreditBranch dl).1 ≠ "Uncategorized" := by
  unfold counterCreditBranch
  split_ifs <;> decide

theorem directDebitBranch_cat (dl : List Char) :
    (directDebitBranch dl).1 ≠ "Uncategorized" := by
  unfold directDebitBranch
  split_ifs <;> try decide
  rcases hf : firstContainsVendor dl with _ | cs
  · simp only [hf]
    decide
  · simp only [hf]
    exact firstContainsVendor_cat hf

theorem cardPurchaseBranch_cat {dl : List Char} {cs : String × String}
    (h : cardPurchaseBranch dl = some cs) : cs.1 ≠ "Uncategorized" := by
  unfold cardPurchaseBranch at h
  split_ifs at h <;>
    first
      | (obtain rfl := Option.some.inj h; decide)
      | exact Option.noConfusion h

theorem debitBranch_cat {dl : List Char} {cs : String × String}
    (h : debitBranch dl = some cs) : cs.1 ≠ "Uncategorized" := by
  unfold debitBranch at h
  split_ifs at h <;>
    first
      | (obtain rfl := Option.some.inj h; decide)
      | exact Option.noConfusion h

theorem fundsTransferBranch_cat {dl : List Char} {cs : String × String}
    (h : fundsTransferBranch dl = some cs) : cs.1 ≠ "Uncategorized" := by
  unfold fundsTransferBranch at h
  split_ifs at h <;>
    first
      | (obtain rfl := Option.some.inj h; decide)
      | exact Option.noConfusion h

theorem subcatBranch_cat {dl sl : List Char} {cs : String × String}
    (h : subcatBranch dl sl = some cs) : cs.1 ≠ "Uncategorized" := by
  unfold subcatBranch at h
  split_ifs at h
  · obtain rfl := Option.some.inj h
    exact counterCreditBranch_cat dl
  · obtain rfl := Option.some.inj h
    exact directDebitBranch_cat dl
  · exact cardPurchaseBranch_cat h
  · exact debitBranch_cat h
  · exact fundsTransferBranch_cat h

theorem mvTail_cat {dl : List Char} {cs : String × String}
    (h : mvTail dl = some cs) : cs.1 ≠ "Uncategorized" := by
  unfold mvTail at h
  split_ifs at h <;>
    first
      | (obtain rfl := Option.some.inj h; decide)
      | skip
  · rcases hf : firstWholeWordVendor dl with _ | cs1 <;> rw [hf] at h
    · obtain rfl := Option.some.inj h
      decide
    · obtain rfl := Option.some.inj h
      exact @firstWholeWordVendor_cat dl cs1 hf
  · rcases hf : firstWholeWordVendor dl with _ | cs1 <;> rw [hf] at h
    · rcases hm : firstMultiwordVendor dl with _ | cs2 <;> rw [hm] at h
      · exact partialMatch_cat h
      · obtain rfl := Option.some.inj h
        exact firstMultiwordVendor_cat hm
    · obtain rfl := Option.some.inj h
      exact firstWholeWordVendor_cat hf

theorem mvStep4_cat {dl : List Char} {subc : Option String} {cs : String × String}
    (h : mvStep4 dl subc = some cs) : cs.1 ≠ "Uncategorized" := by
  simp only [mvStep4] at h
  split_ifs at h
  · obtain rfl := Option.some.inj h
    decide
  · rcases hs : inferSubcat dl subc with _ | s <;> rw [hs] at h <;>
      simp only [mvSubcatStage] at h
    · exact mvTail_cat h
    · rcases hb : subcatBranch dl (stripL (lowerL s.data)) with _ | cs1 <;>
        rw [hb] at h
      · exact mvTail_cat h
      · obtain rfl := Option.some.inj h
        exact subcatBranch_cat hb
  · exact mvTail_cat h

theorem match_vendor_cat {d : String} {subc : Option String} {a : Option ℚ}
    {cs : String × String} (h : match_vendor d subc a = some cs) :
    cs.1 ≠ "Uncategorized" := by
  simp only [match_vendor] at h
  split_ifs at h <;>
    first
      | (obtain rfl := Option.some.inj h; decide)
      | exact mvStep4_cat h

theorem kfGo_sub (cats : List (String × List String)) (desc : List Char) :
    ∀ (lst : List (String × List String)) (maxS : Nat) (best : Option String)
      (bc : String), kfGo cats desc lst maxS best = some bc →
      some bc = best ∨ bc ∈ lst.map Prod.fst := by
  intro lst
  induction lst with
  | nil =>
    intro maxS best bc h
    exact Or.inl h.symm
  | cons p rest ih =>
    obtain ⟨name, kws⟩ := p
    intro maxS best bc h
    simp only [kfGo] at h
    split_ifs at h with h1 h2
    · rcases ih _ _ _ h with h3 | h3
      · exact Or.inl h3
      · exact Or.inr (List.mem_cons_of_mem _ h3)
    · rcases ih _ _ _ h with h3 | h3
      · obtain rfl := Option.some.inj h3.symm
        exact Or.inr (List.mem_cons_self _ _)
      · exact Or.inr (List.mem_cons_of_mem _ h3)
    · rcases ih _ _ _ h with h3 | h3
      · exact Or.inl h3
      · exact Or.inr (List.mem_cons_of_mem _ h3)

theorem keywordFallback_mem {cats : List (String × List String)}
    {desc : List Char} {bc : String}
    (h : keywordFallback cats desc = some bc) :
    bc ∈ category_keywords.map Prod.fst := by
  rcases kfGo_sub cats desc category_keywords 0 none bc h with h2 | h2
  · exact Option.noConfusion h2
  · exact h2

theorem keywordFallback_ne {cats : List (String × List String)}
    {desc : List Char} {bc : String}
    (h : keywordFallback cats desc = some bc) :
    bc ≠ "Income" ∧ bc ≠ "Uncategorized" := by
  have hm := keywordFallback_mem h
  constructor <;> intro he <;> subst he <;> revert hm <;> decide

theorem initialCatSub_income {r : TxRow}
    (h : (initialCatSub r).1 = "Income") :
    anyKw income_keywords (lowerL r.description.data) = true := by
  simp only [initialCatSub] at h
  split_ifs at h <;> simp_all

theorem initialCatSub_uncat {r : TxRow} (ha : r.amount ≤ 0)
    (h : (initialCatSub r).1 = "Uncategorized") :
    initialCatSub r = ("Uncategorized", "Other") := by
  have hexp : decide (0 < r.amount) = false := decide_eq_false (not_lt.mpr ha)
  simp only [initialCatSub, hexp, Bool.false_and] at h ⊢
  split_ifs at h <;> simp_all

theorem finalizeRow_income (cats : List (String × List String))
    (mode : SubcatMode) (r : TxRow)
    (h : (finalizeRow cats mode r).1 = "Income") :
    0 < r.amount ∨ anyKw income_keywords (lowerL r.description.data) = true ∨
    ∃ v, match_vendor r.description (subcatArg mode r (initialCatSub r).2)
        (some r.amount) = some v ∧ v.1 = "Income" := by
  simp only [finalizeRow] at h
  by_cases hc : (decide ((processRow cats mode r).1 = "Uncategorized")
      && decide (0 < r.amount)) = true
  · left
    exact of_decide_eq_true (Bool.and_eq_true_iff.mp hc).2
  · rw [if_neg hc] at h
    simp only [processRow] at h
    by_cases hi : (initialCatSub r).1 ≠ "Uncategorized"
    · rw [if_pos hi] at h
      exact Or.inr (Or.inl (initialCatSub_income h))
    · rw [if_neg hi] at h
      push_neg at hi
      rcases hv : match_vendor r.description
          (subcatArg mode r (initialCatSub r).2) (some r.amount)
        with _ | cs <;> (try rw [hv] at h) <;>
        simp only [processRowVendor] at h
      · rcases hk : keywordFallback cats r.description.data
          with _ | bc <;> (try rw [hk] at h) <;>
          simp only [processRowFallback] at h
        · exact absurd (hi ▸ h) (by decide)
        · exact absurd h (keywordFallback_ne hk).1
      · exact Or.inr (Or.inr ⟨cs, by first | rfl | exact hv, h⟩)

/-- C2 (amended): after `categorize_transactions`, every row categorized as
`Income` either has a strictly positive amount (the final pass), or its
description contains one of the income keywords (the incorrect-sign pass,
which deliberately marks negative income-keyword rows as `Income`), or
`match_vendor` returned an `Income` categorization for it.  The original
claim (`Income` implies amount ≥ 0) is false — see the counterexample. -/
theorem C2_income_sign_amended (cats : List (String × List String))
    (mode : SubcatMode) (rows : List TxRow) (i : Nat) (r : TxRow)
    (p : String × String) (hr : rows[i]? = some r)
    (hp : (categorize_transactions cats mode rows)[i]? = some p)
    (hinc : p.1 = "Income") :
    0 < r.amount ∨ anyKw income_keywords (lowerL r.description.data) = true ∨
    ∃ v, match_vendor r.description (subcatArg mode r (initialCatSub r).2)
        (some r.amount) = some v ∧ v.1 = "Income" := by
  have hpf : p = finalizeRow cats mode r := by
    simp only [categorize_transactions, List.getElem?_map, hr,
      Option.map_some'] at hp
    exact (Option.some.inj hp).symm
  exact finalizeRow_income cats mode r (hpf ▸ hinc)

set_option maxRecDepth 10000 in
/-- Witness for C2 (amended): the single-row frame `("salary", -50)`. -/
theorem C2_income_sign_witness :
    (([⟨"salary", -50, none⟩] : List TxRow)[0]? = some ⟨"salary", -50, none⟩ ∧
      (categorize_transactions defaultCategories .noCol
        [⟨"salary", -50, none⟩])[0]? = some ("Income", "Other") ∧
      (("Income", "Other") : String × String).1 = "Income") ∧
    (0 < (⟨"salary", -50, none⟩ : TxRow).amount ∨
      anyKw income_keywords
        (lowerL (⟨"salary", -50, none⟩ : TxRow).description.data) = true ∨
      ∃ v, match_vendor (⟨"salary", -50, none⟩ : TxRow).description
          (subcatArg .noCol ⟨"salary", -50, none⟩
            (initialCatSub ⟨"salary", -50, none⟩).2)
          (some (⟨"salary", -50, none⟩ : TxRow).amount) = some v ∧
          v.1 = "Income") :=
  ⟨⟨rfl, by decide, rfl⟩,
    C2_income_sign_amended defaultCategories .noCol [⟨"salary", -50, none⟩]
      0 ⟨"salary", -50, none⟩ ("Income", "Other") rfl (by decide) rfl⟩

set_option maxRecDepth 10000 in
/-- C2 counterexample: the description `"salary"` contains an income
keyword, so the incorrect-sign pass categorizes the row as `Income` even
though its amount is −50 < 0; the claimed invariant "every Income row has
amount ≥ 0" fails. -/
theorem C2_counterexample :
    categorize_transactions defaultCategories .noCol [⟨"salary", -50, none⟩]
      = [("Income", "Other")] ∧
    ¬ ((0 : ℚ) ≤ (⟨"salary", -50, none⟩ : TxRow).amount) :=
  ⟨by decide, by decide⟩

/-- C4 (amended): a row still `Uncategorized` after the vendor and keyword
stages is assigned `Income`/`Other Income` by the final pass only when its
amount is *strictly* positive; an amount ≤ 0 — including exactly zero —
leaves it `Uncategorized`/`Other`.  (The claim says a zero amount also
becomes Income; the code tests `amount > 0`, see the counterexample.) -/
theorem C4_final_default_amended (cats : List (String × List String))
    (mode : SubcatMode) (r : TxRow)
    (h : (processRow cats mode r).1 = "Uncategorized") :
    (0 < r.amount → finalizeRow cats mode r = ("Income", "Other Income")) ∧
    (r.amount ≤ 0 → finalizeRow cats mode r = ("Uncategorized", "Other")) := by
  constructor
  · intro ha
    have hc : (decide ((processRow cats mode r).1 = "Uncategorized")
        && decide (0 < r.amount)) = true := by
      rw [decide_eq_true h, decide_eq_true ha]
      rfl
    simp only [finalizeRow, hc, if_true]
  · intro ha
    have hc : (decide ((processRow cats mode r).1 = "Uncategorized")
        && decide (0 < r.amount)) = false := by
      rw [decide_eq_false (not_lt.mpr ha), Bool.and_false]
    simp only [finalizeRow, hc, if_false]
    -- the row kept its initial pair: show it is ("Uncategorized", "Other")
    simp only [processRow] at h ⊢
    by_cases hi : (initialCatSub r).1 ≠ "Uncategorized"
    · rw [if_pos hi] at h
      exact absurd h (by simpa using hi)
    · push_neg at hi
      rw [if_neg (by simpa using hi)] at h ⊢
      rcases hv : match_vendor r.description
          (subcatArg mode r (initialCatSub r).2) (some r.amount)
        with _ | cs <;> (try rw [hv] at h) <;>
        simp only [processRowVendor] at h ⊢
      · rcases hk : keywordFallback cats r.description.data
          with _ | bc <;> (try rw [hk] at h) <;>
          simp only [processRowFallback] at h ⊢
        · rw [ite_self]
          exact initialCatSub_uncat ha hi
        · exact absurd h (keywordFallback_ne hk).2
      · exact absurd h (match_vendor_cat hv)

set_option maxRecDepth 10000 in
/-- Witness for C4 (amended): the concrete unmatched row `("zzqx", 3)` gets
`Income`/`Other Income`, and the unmatched zero-amount row `("zzqx", 0)`
stays `Uncategorized`/`Other`. -/
theorem C4_final_default_witness :
    (processRow defaultCategories .noCol ⟨"zzqx", 3, none⟩).1
      = "Uncategorized" ∧
    finalizeRow defaultCategories .noCol ⟨"zzqx", 3, none⟩
      = ("Income", "Other Income") ∧
    (processRow defaultCategories .noCol ⟨"zzqx", 0, none⟩).1
      = "Uncategorized" ∧
    finalizeRow defaultCategories .noCol ⟨"zzqx", 0, none⟩
      = ("Uncategorized", "Other") :=
  ⟨by decide,
    (C4_final_default_amended defaultCategories .noCol ⟨"zzqx", 3, none⟩
      (by decide)).1 (by norm_num),
    by decide,
    (C4_final_default_amended defaultCategories .noCol ⟨"zzqx", 0, none⟩
      (by decide)).2 le_rfl⟩

set_option maxRecDepth 10000 in
/-- C4 counterexample: the row `("xyzq", 0)` matches no vendor and no
keyword, so it reaches the final pass still unmatched with a non-negative
(zero) amount — and stays `Uncategorized`/`Other`, because the final pass
tests `amount > 0`, not `amount >= 0` as the claim states. -/
theorem C4_counterexample :
    (processRow defaultCategories .noCol ⟨"xyzq", 0, none⟩).1
      = "Uncategorized" ∧
    categorize_transactions defaultCategories .noCol [⟨"xyzq", 0, none⟩]
      = [("Uncategorized", "Other")] ∧
    (0 : ℚ) ≤ (⟨"xyzq", 0, none⟩ : TxRow).amount ∧
    ("Uncategorized" : String) ≠ "Income" :=
  ⟨by decide, by decide, by decide, by decide⟩

/-- C5 (amended): a `refund`-bearing description *that reaches the refund
stage* — called with no subcategory, and containing none of the triggers of
the earlier `match_vendor` stages (investment platforms, payward/kraken,
the personal-name funds-transfer case, bank-account terms, direct-debit /
card-purchase inference tokens, saver+tax, salary/wages, dividend, bare
interest) — yields the first whole-word vendor rule's category with
subcategory forced to `"Refund"`, else `Income`/`Refund`; in particular the
refund rule fires before the step-4 whole-word vendor lookup.  The original
claim quantified over *every* refund-bearing description and is false: the
salary/wages, dividend and interest stages run earlier (see the
counterexample). -/
theorem C5_refund_amended (d : String) (a : Option ℚ) (dl : List Char)
    (hdl : dl = stripL (lowerL d.data))
    (h0 : d.data ≠ [])
    (hre : inStr "refund" dl = true)
    (h1 : anyContains ["etoro", "trading 212", "coinbase", "binance"] dl
      = false)
    (h2 : (inStr "payward" dl || inStr "kraken" dl) = false)
    (h3 : ((inStr "jay" dl || inStr "desai" dl || inStr "j n desai" dl) &&
        inStr "ft" dl) = false)
    (h4 : anyContains ["instant saver", "savings account", "isa",
        "current account"] dl = false)
    (h5 : (inStr "ddr" dl || inStr "direct debit" dl || inStr " dd" dl)
      = false)
    (h6 : (inStr "bcc" dl || inStr "card purchase" dl || inStr "cpm" dl)
      = false)
    (h7 : (inStr "instant saver" dl || (inStr "saver" dl && inStr "tax" dl))
      = false)
    (h8 : (inStr "salary" dl || inStr "wages" dl) = false)
    (h9 : inStr "dividend" dl = false)
    (h10 : (inStr "interest" dl && !(inStr "loan" dl || inStr "mortgage" dl))
      = false) :
    match_vendor d none a =
      (match firstWholeWordVendor dl with
        | some cs => some (cs.1, "Refund")
        | none => some ("Income", "Refund")) := by
  subst hdl
  have hft : containsSub "funds transfer".data ([] : List Char) = false := rfl
  simp only [match_vendor, mvStep4, mvSubcatStage, inferSubcat, subcatTruthy,
    mvTail, h0, hre, h1, h2, h3, h4, h5, h6, h7, h8, h9, h10, hft,
    Bool.false_or, Bool.or_false, Bool.not_false, Bool.true_or,
    Bool.false_and, Bool.and_false, if_true, if_false,
    reduceCtorEq, ne_eq, not_false_eq_true, Bool.false_eq_true,
    decide_False, decide_True]

set_option maxRecDepth 10000 in
/-- Witness for C5 (amended): `"tesco refund"` satisfies every hypothesis,
and the conclusion evaluates to the `tesco` rule's category `Food` with
subcategory `Refund`. -/
theorem C5_refund_witness :
    (inStr "refund" (stripL (lowerL "tesco refund".data)) = true ∧
      inStr "salary" (stripL (lowerL "tesco refund".data)) = false) ∧
    match_vendor "tesco refund" none none = some ("Food", "Refund") :=
  ⟨⟨by decide, by decide⟩, by
    have h := C5_refund_amended "tesco refund" none
      (stripL (lowerL "tesco refund".data)) rfl (by decide) (by decide)
      (by decide) (by decide) (by decide) (by decide) (by decide) (by decide)
      (by decide) (by decide) (by decide) (by decide)
    rw [h]
    decide⟩

set_option maxRecDepth 10000 in
/-- C5 counterexample: `"salary refund"` contains `refund`, and the vendor
rule `salary` matches it as a whole word, so the claim requires category
`Income` with subcategory forced to `"Refund"`; but `match_vendor` checks
`salary` *before* the refund rule and returns subcategory `"Salary/Wages"`,
so the claim quantified over every refund-bearing description fails. -/
theorem C5_counterexample :
    inStr "refund" (stripL (lowerL "salary refund".data)) = true ∧
    firstWholeWordVendor (stripL (lowerL "salary refund".data))
      = some ("Income", "Salary/Wages") ∧
    match_vendor "salary refund" none none = some ("Income", "Salary/Wages") ∧
    (some (("Income", "Salary/Wages") : String × String)
      ≠ some ("Income", "Refund")) :=
  ⟨by decide, by decide, by decide, by decide⟩

/-! ## File handling (`src/utils/file_handler.py`) -/

/-- The split debit/credit combination of `parse_csv` (lines 252-265):
parsed credit kept as-is, parsed debit forced to negative magnitude,
combined as `credit + debit`, then overridden by `credit` on rows where the
parsed credit is non-zero, then by the (negated) debit on rows where the
parsed debit is non-zero. -/
def combined_amount (credit debit : ℚ) : ℚ :=
  let debit_neg := -|debit|
  let base := credit + debit_neg
  let withCredit := if credit ≠ 0 then credit else base
  let withDebit := if debit_neg ≠ 0 then debit_neg else withCredit
  withDebit

/-- C3: in the split debit/credit case, a row with a single non-zero column
gets that column's (sign-normalized) value — `(credit 0, debit 120) ↦ -120`,
`(credit 50, debit 0) ↦ 50` — but a row where *both* parsed values are
non-zero gets the negated debit, not `credit + debit` as the claim and the
code's own comments state: `(credit 50, debit 120) ↦ -120 ≠ -70`, because
the two `df.loc` overrides of lines 264-265 are unconditional and the debit
override runs last. -/
theorem C3_split_columns_behavior :
    combined_amount 0 120 = -120 ∧
    combined_amount 50 0 = 50 ∧
    combined_amount 50 120 = -120 ∧
    (50 : ℚ) + (-120) = -70 ∧
    (-120 : ℚ) ≠ -70 := by
  refine ⟨?_, ?_, ?_, by norm_num, by norm_num⟩ <;>
    · simp only [combined_amount]
      norm_num

/-! ### `clean_description` (lines 690-844)

The regular expressions of `clean_description` are embedded as explicit
matchers over `List Char`.  `gsubB` is `re.sub(pattern, '', s)`: scan
left to right, remove each (leftmost, non-overlapping) match, tracking the
previous original character so matchers can test `\b` on the left.
Each matcher receives the previous character and the current suffix and
returns the match length at this position, if any; bounded-repetition
backtracking is resolved exactly as Python's engine does on these
patterns. -/

def wordOpt : Option Char → Bool
  | none => false
  | some c => isWordC c

def headIsWord : List Char → Bool
  | [] => false
  | c :: _ => isWordC c

def headIsSpace : List Char → Bool
  | [] => false
  | c :: _ => isSpaceC c

def headIs (p : Char → Bool) : List Char → Bool
  | [] => false
  | c :: _ => p c

/-- Case-insensitive `startswith` (ASCII). -/
def ciStartsWith2 (pat : String) (s : List Char) : Bool :=
  listStartsWith (lowerL pat.data) (lowerL s)

/-- Case-insensitive substring search (ASCII). -/
def containsCI (pat : String) (s : List Char) : Bool :=
  containsSub (lowerL pat.data) (lowerL s)

def digitRun (s : List Char) : Nat :=
  (s.takeWhile Char.isDigit).length

def wsRun (s : List Char) : Nat :=
  (s.takeWhile isSpaceC).length

def charAtIs (s : List Char) (i : Nat) (c : Char) : Bool :=
  match s.drop i with
  | [] => false
  | x :: _ => x == c

/-- `re.sub(..., '', ...)` driver: `m prev suffix` returns the match
length at the current position (`0`/`none` meaning no match); matched spans
are dropped and scanning resumes after them. -/
def gsubFuelB (m : Option Char → List Char → Option Nat) :
    Nat → Option Char → List Char → List Char
  | 0, _, s => s
  | _ + 1, _, [] => []
  | fuel + 1, prev, c :: cs =>
    match m prev (c :: cs) with
    | some (n + 1) =>
      gsubFuelB m fuel (((c :: cs).take (n + 1)).getLast?) ((c :: cs).drop (n + 1))
    | _ => c :: gsubFuelB m fuel (some c) cs

def gsubB (m : Option Char → List Char → Option Nat) (s : List Char) :
    List Char :=
  gsubFuelB m s.length none s

/-- `\b(REF|ID|TRXN|TRAN|TRANS|TRN)[\s#:]*\d+\b` (IGNORECASE), line 757:
the alternatives are tried in order, and the character classes are disjoint
so greedy matching is exact. -/
def refCodesMatcher (prev : Option Char) (s : List Char) : Option Nat :=
  if wordOpt prev then none
  else
    ["REF", "ID", "TRXN", "TRAN", "TRANS", "TRN"].findSome? (fun t =>
      if ciStartsWith2 t s then
        let r1 := s.drop t.length
        let k := (r1.takeWhile (fun c => isSpaceC c || c == '#' || c == ':')).length
        let r2 := r1.drop k
        let d := digitRun r2
        if d ≥ 1 && !headIsWord (r2.drop d) then some (t.length + k + d)
        else none
      else none)

def subRefCodes (s : List Char) : List Char :=
  gsubB refCodesMatcher s

/-- `\b\d{5,}\b`, line 758. -/
def longNumMatcher (prev : Option Char) (s : List Char) : Option Nat :=
  if wordOpt prev then none
  else
    let d := digitRun s
    if d ≥ 5 && !headIsWord (s.drop d) then some d else none

def subLongNumbers (s : List Char) : List Char :=
  gsubB longNumMatcher s

/-- `\d{1,2}<sep>\d{1,2}<sep>\d{2,4}` (date patterns 1-2, lines 762-763);
the bounded groups succeed only when the digit run fits and the separator
follows. -/
def dateM12 (sep : Char) (_ : Option Char) (s : List Char) : Option Nat :=
  let a := digitRun s
  if 1 ≤ a && a ≤ 2 && charAtIs s a sep then
    let s2 := s.drop (a + 1)
    let b := digitRun s2
    if 1 ≤ b && b ≤ 2 && charAtIs s2 b sep then
      let s3 := s2.drop (b + 1)
      let c := digitRun s3
      if c ≥ 2 then some (a + 1 + b + 1 + min c 4) else none
    else none
  else none

/-- `\d{2,4}-\d{1,2}-\d{1,2}` (date pattern 3, line 764). -/
def dateM3 (_ : Option Char) (s : List Char) : Option Nat :=
  let a := digitRun s
  if 2 ≤ a && a ≤ 4 && charAtIs s a '-' then
    let s2 := s.drop (a + 1)
    let b := digitRun s2
    if 1 ≤ b && b ≤ 2 && charAtIs s2 b '-' then
      let s3 := s2.drop (b + 1)
      let c := digitRun s3
      if c ≥ 1 then some (a + 1 + b + 1 + min c 2) else none
    else none
  else none

def isAlpha3 : List Char → Bool
  | a :: b :: c :: _ => a.isAlpha && b.isAlpha && c.isAlpha
  | _ => false

/-- `\d{1,2}\s[A-Za-z]{3}\s\d{2,4}` (date pattern 4, line 765). -/
def dateM4 (_ : Option Char) (s : List Char) : Option Nat :=
  let a := digitRun s
  if 1 ≤ a && a ≤ 2 && headIsSpace (s.drop a) then
    let s2 := s.drop (a + 1)
    if isAlpha3 s2 && headIsSpace (s2.drop 3) then
      let s3 := s2.drop 4
      let c := digitRun s3
      if c ≥ 2 then some (a + 1 + 3 + 1 + min c 4) else none
    else none
  else none

/-- The four date-pattern substitutions of lines 761-768, applied in
order. -/
def subDates (s : List Char) : List Char :=
  gsubB dateM4 (gsubB dateM3 (gsubB (dateM12 '-') (gsubB (dateM12 '/') s)))

/-- The leading tags stripped at lines 771-778 (checked with
`cleaned.upper().startswith(...)`, i.e. case-insensitively, in list
order, each stripping at most once but successive tags may combine). -/
def leadTags : List String :=
  ["PAYMENT TO ", "PAYMENT FROM ", "PURCHASE AT ", "POS PURCHASE ",
   "DEPOSIT AT ", "ATM ", "CHQ ", "CHEQUE ", "DIRECT DEPOSIT ",
   "ACH ", "CREDIT ", "DEBIT ", "DIRECT DEBIT TO "]

def dropLeadingTags (c : List Char) : List Char :=
  leadTags.foldl (fun acc p => if ciStartsWith2 p acc then acc.drop p.data.length else acc) c

def alphaAtPos (s : List Char) (i : Nat) : Bool :=
  match s.drop i with
  | [] => false
  | c :: _ => c.isAlpha

/-- `re.search(r'(?<![A-Z])SKY(?![A-Z])', s, IGNORECASE)` (line 823):
an occurrence of `sky` with no letter on either side. -/
def skySearch (s : List Char) : Bool :=
  (List.range (s.length + 1)).any fun i =>
    listStartsWith "sky".data (lowerL (s.drop i)) &&
    !(if i = 0 then false else alphaAtPos s (i - 1)) && !alphaAtPos s (i + 3)

/-- The special-case merchant rewrites of lines 783-828, in source order. -/
def merchantSpecial (c : List Char) : Option (List Char) :=
  if containsCI "amex" c || containsCI "american express" c then
    some "American Express".data
  else if containsCI "visa" c || containsCI "mastercard" c ||
      containsCI "credit card pmt" c then some "Credit Card Payment".data
  else if containsCI "amazon" c || containsCI "amzn" c then some "Amazon".data
  else if containsCI "tesco" c then some "Tesco".data
  else if containsCI "sainsbury" c then some "Sainsbury\x27s".data
  else if containsCI "asda" c then some "Asda".data
  else if containsCI "aldi" c then some "Aldi".data
  else if containsCI "lidl" c then some "Lidl".data
  else if containsCI "morrisons" c then some "Morrisons".data
  else if containsCI "waitrose" c then some "Waitrose".data
  else if containsCI "ikea" c then some "IKEA".data
  else if containsCI "netflix" c then some "Netflix".data
  else if containsCI "spotify" c then some "Spotify".data
  else if containsCI "british gas" c || containsCI "britishgas" c then
    some "British Gas".data
  else if containsCI "edf" c || containsCI "e.d.f" c then
    some "EDF Energy".data
  else if containsCI "thames water" c || containsCI "thameswater" c then
    some "Thames Water".data
  else if containsCI "tv license" c || containsCI "tvlicense" c then
    some "TV License".data
  else if skySearch c then some "Sky".data
  else if containsCI "virgin media" c || containsCI "virginmedia" c then
    some "Virgin Media".data
  else if containsCI "bt group" c || containsCI "btgroup" c ||
      containsCI "bt.com" c then some "BT".data
  else none

/-- The whole-word type-indicator removals of lines 831-836. -/
def typeIndicators : List String :=
  ["PURCHASE", "PAYMENT", "TRANSFER", "FEE", "INTEREST", "DEPOSIT",
   "WITHDRAWAL", "REFUND", "REVERSAL", "CHARGE", "CREDIT", "DEBIT",
   "TRANSACTION"]

def indicatorMatcher (ind : String) (prev : Option Char) (s : List Char) :
    Option Nat :=
  if !wordOpt prev && ciStartsWith2 ind s &&
      !headIsWord (s.drop ind.data.length) then
    some ind.data.length
  else none

def subTypeIndicators (s : List Char) : List Char :=
  typeIndicators.foldl (fun acc ind => gsubB (indicatorMatcher ind) acc) s

def inPayeeClass (c : Char) : Bool :=
  c.isAlpha || c.isDigit || isSpaceC c || c == '&'

def matchLitCI (lit : String) (s : List Char) : Option (List Char) :=
  if ciStartsWith2 lit s then some (s.drop lit.data.length) else none

def matchWs1 (s : List Char) : Option (List Char) :=
  let w := wsRun s
  if w = 0 then none else some (s.drop w)

/-- `\s+([A-Za-z0-9\s&]+)`: greedy whitespace, then the greedy capture
group, with Python's backtracking (give back one whitespace when the
capture cannot otherwise start). -/
def payeeCapture (s : List Char) : Option (List Char) :=
  let w := wsRun s
  if w = 0 then none
  else
    let after := s.drop w
    if headIs inPayeeClass after then some (after.takeWhile inPayeeClass)
    else if w ≥ 2 then some ((s.drop (w - 1)).takeWhile inPayeeClass)
    else none

/-- `Direct\s+Debit\s+to\s+BUPA` (IGNORECASE) at one position. -/
def bupaAt (t : List Char) : Bool :=
  ((matchLitCI "direct" t).bind fun t1 =>
   (matchWs1 t1).bind fun t2 =>
   (matchLitCI "debit" t2).bind fun t3 =>
   (matchWs1 t3).bind fun t4 =>
   (matchLitCI "to" t4).bind fun t5 =>
   (matchWs1 t5).bind fun t6 =>
   matchLitCI "bupa" t6).isSome

def bupaSearch (s : List Char) : Bool :=
  (List.range (s.length + 1)).any fun i => bupaAt (s.drop i)

/-- `Direct\s+Debit\s+to\s+([A-Za-z0-9\s&]+)` at one position: the
captured payee. -/
def ddAt (t : List Char) : Option (List Char) :=
  (matchLitCI "direct" t).bind fun t1 =>
  (matchWs1 t1).bind fun t2 =>
  (matchLitCI "debit" t2).bind fun t3 =>
  (matchWs1 t3).bind fun t4 =>
  (matchLitCI "to" t4).bind fun t5 =>
  payeeCapture t5

/-- Lines 737-740: leftmost payee extraction, `.strip()`ed. -/
def ddMatch (s : List Char) : Option (List Char) :=
  ((List.range (s.length + 1)).findSome? fun i => ddAt (s.drop i)).map stripL

/-- `(Payment|Transfer)\s+to\s+([A-Za-z0-9\s&]+)` at one position. -/
def paymentAt (t : List Char) : Option (List Char) :=
  (match matchLitCI "payment" t with
   | some t1 => some t1
   | none => matchLitCI "transfer" t).bind fun t1 =>
  (matchWs1 t1).bind fun t2 =>
  (matchLitCI "to" t2).bind fun t3 =>
  payeeCapture t3

def paymentMatch (s : List Char) : Option (List Char) :=
  ((List.range (s.length + 1)).findSome? fun i => paymentAt (s.drop i)).map stripL

/-- `Ref:\s*([A-Za-z0-9\s&]+)` at one position (the `*` may donate its
last whitespace to the capture). -/
def refAt (t : List Char) : Option (List Char) :=
  (matchLitCI "ref:" t).bind fun t1 =>
    let w := wsRun t1
    let after := t1.drop w
    if headIs inPayeeClass after then some (after.takeWhile inPayeeClass)
    else if w ≥ 1 then some ((t1.drop (w - 1)).takeWhile inPayeeClass)
    else none

def has3alpha : List Char → Bool
  | a :: b :: c :: rest => (a.isAlpha && b.isAlpha && c.isAlpha) || has3alpha (b :: c :: rest)
  | _ => false

/-- Lines 749-754: the leftmost `Ref:` match, returned only when the
stripped reference contains three consecutive letters; otherwise the
pipeline falls through. -/
def refMatch (s : List Char) : Option (List Char) :=
  match (List.range (s.length + 1)).findSome? (fun i => refAt (s.drop i)) with
  | none => none
  | some cap =>
    let ref := stripL cap
    if has3alpha ref then some ref else none

/-- Python `str.split(sep)` keeping empty parts. -/
def splitOnCharAux (sep : Char) : List Char → List Char → List (List Char)
  | acc, [] => [acc.reverse]
  | acc, c :: cs =>
    if c == sep then acc.reverse :: splitOnCharAux sep [] cs
    else splitOnCharAux sep (c :: acc) cs

def splitOnChar (sep : Char) (s : List Char) : List (List Char) :=
  splitOnCharAux sep [] s

/-- `\b(DDR|BGC|CBP|BCC|CPM|BP|SO|DD|FT)$` removal (line 722): strip a
trailing code token sitting at a word boundary. -/
def subSuffixCode (vp : List Char) : List Char :=
  match (List.range (vp.length + 1)).find? (fun i =>
      boundaryAt vp i &&
      ["DDR", "BGC", "CBP", "BCC", "CPM", "BP", "SO", "DD", "FT"].any
        (fun t => vp.drop i == t.data)) with
  | some i => vp.take i
  | none => vp

/-- `ON\s+\d+\s+[A-Z]{3}` removal (line 725). -/
def onDateMatcher (_ : Option Char) (s : List Char) : Option Nat :=
  match s with
  | 'O' :: 'N' :: rest =>
    let w := wsRun rest
    if w = 0 then none
    else
      let r2 := rest.drop w
      let d := digitRun r2
      if d = 0 then none
      else
        let w2 := wsRun (r2.drop d)
        if w2 = 0 then none
        else
          match (r2.drop d).drop w2 with
          | a :: b :: c :: _ =>
            if a.isUpper && b.isUpper && c.isUpper then
              some (2 + w + d + w2 + 3)
            else none
          | _ => none
  | _ => none

/-- The tab-separated Barclays branch of lines 708-729 (unreachable after
whitespace collapsing, but embedded for completeness). -/
def tabBranch (cleaned : List Char) : List Char :=
  let parts := splitOnChar '\t' cleaned
  let vendor_part := stripL (parts.headD [])
  if (vendor_part == "Direct Debit".data || vendor_part == "Debit".data ||
      vendor_part == "Card Purchase".data) && parts.length > 1 then
    let vp2 := stripL (parts.getD 1 [])
    let vp3 := stripL (subSuffixCode vp2)
    stripL (gsubB onDateMatcher vp3)
  else vendor_part

/-- Whether a string contains a visible (non-whitespace) character. -/
def hasNonWs (s : List Char) : Bool :=
  s.any (fun c => !isSpaceC c)

/-- The final stage of `clean_description` (lines 830-844): remove
type-indicator words, strip, and fall back to the collapsed original when
fewer than 2 characters remain. -/
def cdMerchant (desc c5 : List Char) : Option (List Char) → List Char
  | some m => m
  | none =>
    let c7 := stripL (subTypeIndicators c5)
    if c7.length < 2 then collapseL desc else c7

/-- Lines 756-828: reference-code, long-number and date removal, leading
tags, re-collapse, then the merchant special cases. -/
def cdStage3 (desc cleaned : List Char) : List Char :=
  let c5 := collapseL (dropLeadingTags (subDates (subLongNumbers
    (subRefCodes cleaned))))
  cdMerchant desc c5 (merchantSpecial c5)

def cdRef (desc cleaned : List Char) : Option (List Char) → List Char
  | some r => r
  | none => cdStage3 desc cleaned

def cdPayment (desc cleaned : List Char) : Option (List Char) → List Char
  | some p => p
  | none => cdRef desc cleaned (refMatch cleaned)

def cdDD (desc cleaned : List Char) : Option (List Char) → List Char
  | some p => p
  | none => cdPayment desc cleaned (paymentMatch cleaned)

/-- `clean_description(desc)` over `List Char`. -/
def cleanDescL (desc : List Char) : List Char :=
  let cleaned := collapseL desc
  if cleaned.contains '\t' then tabBranch cleaned
  else if bupaSearch cleaned then "BUPA Healthcare".data
  else cdDD desc cleaned (ddMatch cleaned)

/-- `clean_description(desc)` (for string inputs; non-string inputs are
stringified upstream). -/
def clean_description (desc : String) : String :=
  ⟨cleanDescL desc.data⟩

/-! ### C8: the short-result guard -/

lemma splitWsAux_mem_ne (l : List Char) :
    ∀ acc w, w ∈ splitWsAux acc l → w ≠ [] := by
  induction l with
  | nil =>
    intro acc w hw
    simp only [splitWsAux] at hw
    by_cases hacc : acc = []
    · rw [if_pos hacc] at hw
      exact absurd hw (List.not_mem_nil w)
    · rw [if_neg hacc] at hw
      rcases List.mem_cons.mp hw with heq | hw2
      · rw [heq]
        simp [hacc]
      · exact absurd hw2 (List.not_mem_nil w)
  | cons c cs ih =>
    intro acc w hw
    simp only [splitWsAux] at hw
    by_cases hsp : isSpaceC c = true
    · rw [if_pos hsp] at hw
      by_cases hacc : acc = []
      · rw [if_pos hacc] at hw
        exact ih [] w hw
      · rw [if_neg hacc] at hw
        rcases List.mem_cons.mp hw with heq | hw2
        · rw [heq]
          simp [hacc]
        · exact ih [] w hw2
    · rw [if_neg hsp] at hw
      exact ih (c :: acc) w hw

lemma splitWsAux_ne_nil (l : List Char) :
    ∀ acc, (acc ≠ [] ∨ l.any (fun c => !isSpaceC c) = true) →
      splitWsAux acc l ≠ [] := by
  induction l with
  | nil =>
    intro acc h
    rcases h with h | h
    · simp [splitWsAux, h]
    · simp at h
  | cons c cs ih =>
    intro acc h
    simp only [splitWsAux]
    by_cases hsp : isSpaceC c = true
    · rw [if_pos hsp]
      by_cases hacc : acc = []
      · rw [if_pos hacc]
        apply ih []
        right
        rcases h with h | h
        · exact absurd hacc h
        · simpa [List.any_cons, hsp] using h
      · rw [if_neg hacc]
        simp
    · rw [if_neg hsp]
      apply ih (c :: acc)
      left
      exact List.cons_ne_nil c acc

lemma collapseL_ne_nil (s : List Char) (h : hasNonWs s = true) :
    collapseL s ≠ [] := by
  have h1 : splitWs s ≠ [] := splitWsAux_ne_nil s [] (Or.inr h)
  rcases hsp : splitWs s with _ | ⟨w, _ | ⟨w2, ws2⟩⟩
  · exact absurd hsp h1
  · have hw : w ≠ [] :=
      splitWsAux_mem_ne s [] w (by
        rw [show splitWsAux [] s = splitWs s from rfl, hsp]
        exact List.mem_cons_self w [])
    simp only [collapseL, hsp, joinSpace]
    exact hw
  · simp only [collapseL, hsp, joinSpace]
    simp

set_option maxHeartbeats 1600000 in
/-- C8 (amended): the guard of lines 838-844 protects only the generic
fall-through path.  When the collapsed description reaches that path (no
tab, no BUPA/direct-debit/payment/reference extraction and no merchant
special case fires) and the stripped post-pipeline result is shorter than
2 characters, `clean_description` returns the whitespace-collapsed
original; consequently, on this path, inputs containing at least one
non-whitespace character never produce an empty label.  The claim's
unrestricted "never empty from non-empty input" is false — see the
counterexample: a non-empty, all-whitespace input collapses to the empty
string, and the guard returns exactly that collapsed original. -/
theorem C8_short_guard_amended (desc c5 : List Char)
    (hc5 : c5 = collapseL (dropLeadingTags (subDates (subLongNumbers
      (subRefCodes (collapseL desc))))))
    (ht : (collapseL desc).contains '\t' = false)
    (hb : bupaSearch (collapseL desc) = false)
    (hdd : ddMatch (collapseL desc) = none)
    (hpm : paymentMatch (collapseL desc) = none)
    (hrm : refMatch (collapseL desc) = none)
    (hms : merchantSpecial c5 = none) :
    ((stripL (subTypeIndicators c5)).length < 2 →
      cleanDescL desc = collapseL desc) ∧
    (hasNonWs desc = true → cleanDescL desc ≠ []) := by
  have hmain : cleanDescL desc =
      (if (stripL (subTypeIndicators c5)).length < 2 then collapseL desc
       else stripL (subTypeIndicators c5)) := by
    simp only [cleanDescL]
    rw [if_neg (by rw [ht]; simp), if_neg (by rw [hb]; simp), hdd]
    simp only [cdDD]
    rw [hpm]
    simp only [cdPayment]
    rw [hrm]
    simp only [cdRef, cdStage3]
    rw [← hc5, hms]
    simp only [cdMerchant]
  constructor
  · intro hlen
    rw [hmain, if_pos hlen]
  · intro hnw
    rw [hmain]
    by_cases hl : (stripL (subTypeIndicators c5)).length < 2
    · rw [if_pos hl]
      exact collapseL_ne_nil desc hnw
    · rw [if_neg hl]
      intro hnil
      exact hl (by rw [hnil]; decide)

/-- Witness for C8: the 1-character description "x" reaches the
fall-through path, the post-pipeline result "x" is shorter than 2
characters, and `clean_description` returns the collapsed original "x",
which is non-empty. -/
theorem C8_short_guard_witness :
    ((stripL (subTypeIndicators (collapseL (dropLeadingTags (subDates
        (subLongNumbers (subRefCodes (collapseL "x".data)))))))).length < 2 ∧
      hasNonWs "x".data = true) ∧
    cleanDescL "x".data = collapseL "x".data ∧ cleanDescL "x".data ≠ [] :=
  ⟨⟨by decide, by decide⟩,
    (C8_short_guard_amended "x".data _ rfl (by decide) (by decide) (by decide)
      (by decide) (by decide) (by decide)).1 (by decide),
    (C8_short_guard_amended "x".data _ rfl (by decide) (by decide) (by decide)
      (by decide) (by decide) (by decide)).2 (by decide)⟩

/-- Counterexample for C8: the single-space description is a non-empty
string, yet `clean_description` returns the empty label, because the
"return the collapsed original" guard collapses an all-whitespace input
to the empty string. -/
theorem C8_counterexample :
    clean_description " " = "" ∧ (" " : String) ≠ "" :=
  ⟨rfl, by decide⟩

end FinDash
